import Mathlib

/-!
Verification of the TEE spatial-pyramid / tile-serving subsystem and the
embedding similarity-search and relabeling engine against their
specification.

The Python source is shallowly embedded over exact rationals.  Wherever the
source computes a Euclidean distance `np.sqrt(np.sum(diff ** 2))` and only
ever compares the result with other such distances or with a validated
nonnegative threshold, the embedding works with the squared distance and
the squared threshold: the square root is strictly monotone on nonnegative
arguments, so every comparison, filter, argmin, sort order and zero test is
preserved exactly.  Python dicts (insertion-ordered) are modelled as
association lists, and `min(d, key=d.get)` as the first minimiser in
iteration order.
-/

/-- One embedding vector (a 1-D numpy float array), modelled over `ℚ`. -/
abbrev Vec := List ℚ

/-- Squared Euclidean distance `np.sum(diff ** 2)` for `diff = u - v`.
The source takes `np.sqrt` of this before comparing, which is
order-equivalent (see the module comment). -/
def distSq (u v : Vec) : ℚ := (List.zipWith (fun a b => (a - b) ^ 2) u v).sum

/-- The 6-parameter affine geotransform, with the field names used by
`src.transform` and by the `geotransform` object in `metadata.json`. -/
structure Geotransform where
  a : ℚ
  b : ℚ
  c : ℚ
  d : ℚ
  e : ℚ
  f : ℚ

/-- Python `round` on a rational: round half to even, as `int(round(x))`
applies to the fractional window offsets in `get_tile`. -/
def pyround (x : ℚ) : ℤ :=
  if x - Int.floor x < 1/2 then Int.floor x
  else if 1/2 < x - Int.floor x then Int.floor x + 1
  else if Int.floor x % 2 = 0 then Int.floor x else Int.floor x + 1

/-- Python `int()` truncation toward zero, as used on the pixel bounds in
`create_faiss_index_for_year`. -/
def pytrunc (x : ℚ) : ℤ := if 0 ≤ x then Int.floor x else -Int.floor (-x)

/-- Python `round` on a real: the same round-half-to-even rule as
`pyround`, needed over `ℝ` because `round(x, 4)` in the relabel endpoint
is applied to a square root. -/
noncomputable def pyroundR (x : ℝ) : ℤ :=
  if x - Int.floor x < 1/2 then Int.floor x
  else if 1/2 < x - Int.floor x then Int.floor x + 1
  else if Int.floor x % 2 = 0 then Int.floor x else Int.floor x + 1

/-- Python `round(x, 4)`: round half to even at the fourth decimal. -/
noncomputable def pyround4 (x : ℝ) : ℝ := (pyroundR (x * 10000) : ℝ) / 10000

/-! ## Similarity search
Embedding of the distance / filter / cap / convert core of
`api_search_similar_embeddings` (src/backend/web_server.py, lines
1480-1551), after the index artefacts have been loaded and the query and
threshold validated.  The store is the pair of parallel arrays
`all_embeddings.npy` (list of vectors) and `pixel_coords.npy` (list of
integer pixel coordinates); `tsq` is the squared threshold. -/

/-- Result cap hard-coded in the endpoint: `MAX_RESULTS = 250000`. -/
def MAX_RESULTS : ℕ := 250000

/-- Squared distance from the query to stored vector `i`
(entry `i` of the `distances` array, squared). -/
def dsqAt (embs : List Vec) (query : Vec) (i : ℕ) : ℚ :=
  distSq (embs.getD i []) query

/-- Within-threshold indices in storage order:
`similar_indices = np.where(distances <= threshold)[0]`. -/
def similarIndices (embs : List Vec) (query : Vec) (tsq : ℚ) : List ℕ :=
  (List.range embs.length).filter (fun i => decide (dsqAt embs query i ≤ tsq))

/-- One entry of the response `matches` list. -/
structure SearchMatch where
  lat : ℚ
  lon : ℚ
  dsq : ℚ
  px : ℤ
  py : ℤ
deriving DecidableEq

/-- The match record for index `i`: the endpoint converts the pixel
coordinate with `lon = c + px * a` and `lat = f + py * e`. -/
def mkMatch (coords : List (ℤ × ℤ)) (gt : Geotransform) (embs : List Vec)
    (query : Vec) (i : ℕ) : SearchMatch :=
  let p := coords.getD i (0, 0)
  { lat := gt.f + p.2 * gt.e
    lon := gt.c + p.1 * gt.a
    dsq := dsqAt embs query i
    px := p.1
    py := p.2 }

/-- Index list used when more than `MAX_RESULTS` entries match:
`similar_indices[np.argsort(distances[similar_indices])][:MAX_RESULTS]`
(a sort of the matched indices by distance, then a prefix). -/
def cappedIndices (embs : List Vec) (query : Vec) (tsq : ℚ) : List ℕ :=
  ((similarIndices embs query tsq).mergeSort
    (fun i j => decide (dsqAt embs query i ≤ dsqAt embs query j))).take MAX_RESULTS

/-- Response of the search endpoint: the `matches` list plus the
statistics the endpoint computes (`total_pixels`, `matches_found`, and the
closest-match distance over the within-threshold entries). -/
structure SearchResult where
  matchList : List SearchMatch
  total_pixels : ℕ
  matches_found : ℕ
  min_match_dsq : Option ℚ
deriving DecidableEq

/-- The search core: compute all distances, filter by the threshold, sort
and truncate only when more than `MAX_RESULTS` matched, then convert the
surviving pixel coordinates to lon/lat. -/
def api_search_similar_embeddings (embs : List Vec) (coords : List (ℤ × ℤ))
    (gt : Geotransform) (query : Vec) (tsq : ℚ) : SearchResult :=
  let similar := similarIndices embs query tsq
  let final := if MAX_RESULTS < similar.length then cappedIndices embs query tsq
               else similar
  { matchList := final.map (mkMatch coords gt embs query)
    total_pixels := embs.length
    matches_found := final.length
    min_match_dsq := (similar.map (dsqAt embs query)).min? }

/-! ## Relabeling engine
Embedding of `api_relabel_by_similarity` (src/backend/web_server.py, lines
1636-1704).  The request dicts are modelled as association lists in
insertion order.  The source batches the pixels in groups of 1000 but
processes them in exactly the same order as a single pass, so the batching
is not reproduced.  All comparisons (argmin, label change) happen on the
unrounded distances and are carried out on squared values here (the square
root is strictly monotone); the two distances *emitted in a record*,
however, are `round(old_distance, 4)` / `round(new_distance, 4)` of the
square roots in the source, and are modelled exactly so by `reportDist`,
because rounding is only weakly monotone. -/

/-- A distance as the relabel endpoint reports it inside a record:
`round(sqrt(dsq), 4)` for the squared distance `dsq`. -/
noncomputable def reportDist (dsq : ℚ) : ℝ := pyround4 (Real.sqrt (dsq : ℝ))

/-- One value of the `labeled_pixels` dict: current label, embedding and
position. -/
structure LabeledPixel where
  label : String
  emb : Vec
  lat : ℚ
  lon : ℚ
deriving DecidableEq

/-- Pointwise vector sum (numpy array addition). -/
def vecAdd (u v : Vec) : Vec := List.zipWith (· + ·) u v

/-- Per-component mean `np.mean(emb_array, axis=0)` of a nonempty list of
equal-length vectors. -/
def vecMean : List Vec → Vec
  | [] => []
  | v :: vs => (vs.foldl vecAdd v).map (fun x => x / ((vs.length + 1 : ℕ) : ℚ))

/-- The `label_avgs` dict: mean embedding per label, skipping labels with
an empty embedding list. -/
def label_avgs (label_embeddings : List (String × List Vec)) :
    List (String × Vec) :=
  label_embeddings.filterMap
    (fun p => if p.2.isEmpty then none else some (p.1, vecMean p.2))

/-- `min(distances, key=distances.get)` together with its distance: the
first label (in dict iteration order) whose mean is at minimal distance
from `v`, paired with that squared distance. -/
def bestLabel (avgs : List (String × Vec)) (v : Vec) : Option (String × ℚ) :=
  avgs.foldl
    (fun best p =>
      match best with
      | none => some (p.1, distSq v p.2)
      | some b => if distSq v p.2 < b.2 then some (p.1, distSq v p.2) else best)
    none

/-- `distances[current_label]`: the squared distance from `v` to the mean
of label `lab`, or `none` when `lab` is not a key of `label_avgs`
(in which case the source raises `KeyError`). -/
def lookupDsq (avgs : List (String × Vec)) (v : Vec) (lab : String) : Option ℚ :=
  (avgs.find? (fun p => p.1 == lab)).map (fun p => distSq v p.2)

/-- One entry of the response `relabeled` list: the two distance fields
hold `round(old_distance, 4)` / `round(new_distance, 4)` as emitted by
the endpoint. -/
structure RelabelRecord where
  key : String
  old_label : String
  new_label : String
  old_distance : ℝ
  new_distance : ℝ
  lat : ℚ
  lon : ℚ

/-- Response of the relabel endpoint. -/
structure RelabelResult where
  relabeled : List RelabelRecord
  relabel_count : ℕ
  total_pixels : ℕ
  unchanged_pixels : ℕ

/-- Re-evaluation of a single labeled pixel: find the closest label mean,
look up the distance to the current label (a `KeyError` when the current
label has no mean), and emit a record — with both distances rounded to
four decimals via `reportDist` — exactly when the closest label differs
from the current one. -/
noncomputable def processPixel (avgs : List (String × Vec))
    (kp : String × LabeledPixel) : Except String (Option RelabelRecord) :=
  match bestLabel avgs kp.2.emb with
  | none => .error "no label averages"
  | some nb =>
    match lookupDsq avgs kp.2.emb kp.2.label with
    | none => .error ("KeyError: " ++ kp.2.label)
    | some oldD =>
      if nb.1 ≠ kp.2.label then
        .ok (some ⟨kp.1, kp.2.label, nb.1, reportDist oldD, reportDist nb.2,
          kp.2.lat, kp.2.lon⟩)
      else .ok none

/-- The relabel endpoint: validate the two dicts, compute the label means
(erroring when no label has any vectors), then re-evaluate every pixel in
order; any `KeyError` aborts the whole request (the endpoint's
catch-all turns it into an error response). -/
noncomputable def api_relabel_by_similarity (label_embeddings : List (String × List Vec))
    (labeled_pixels : List (String × LabeledPixel)) :
    Except String RelabelResult :=
  if label_embeddings.isEmpty then .error "No label embeddings provided"
  else if labeled_pixels.isEmpty then .ok ⟨[], 0, 0, 0⟩
  else
    let avgs := label_avgs label_embeddings
    if avgs.isEmpty then .error "No valid labels with embeddings"
    else do
      let recs ← labeled_pixels.mapM (processPixel avgs)
      let rs := recs.reduceOption
      .ok ⟨rs, rs.length, labeled_pixels.length, labeled_pixels.length - rs.length⟩

/-! ## RGB pyramid builder
Embedding of `create_rgb_pyramids` and its helpers
(src/backend/processing/create_rgb_pyramids.py).  A level file is
described by its pixel dimensions; the builder's effect on disk is
recorded as the list of level numbers written plus a flag for the
metadata sidecar.  The float literals of `PYRAMID_FACTORS` are taken at
decimal face value. -/

/-- A raster file, described by the header data the builders consult. -/
structure RasterFile where
  height : ℕ
  width : ℕ
  bands : ℕ
deriving DecidableEq

/-- `PYRAMID_FACTORS`: per-level zoom-out factor from level 0. -/
def PYRAMID_FACTORS : List (ℕ × ℚ) :=
  [(0, 1), (1, 3.162), (2, 10), (3, 31.62), (4, 100)]

/-- `calculate_new_shape`: `(max(1, int(h / scale)), max(1, int(w / scale)))`
for `scale = target_res / original_res`. -/
def calculate_new_shape (original_shape : ℕ × ℕ) (original_res target_res : ℚ) :
    ℕ × ℕ :=
  let scale := target_res / original_res
  (max 1 (pytrunc ((original_shape.1 : ℚ) / scale)).toNat,
   max 1 (pytrunc ((original_shape.2 : ℚ) / scale)).toNat)

/-- Output shape of `resample_geotiff` for level `level` of an RGB pyramid
build with the given source raster and resolution. -/
def rgbLevelShape (src : RasterFile) (source_resolution : ℚ) (level : ℕ) :
    ℕ × ℕ :=
  calculate_new_shape (src.height, src.width) source_resolution
    (source_resolution * (PYRAMID_FACTORS.getD level (0, 1)).2)

/-- The parsed `pyramid_metadata.json` sidecar: the recorded source mtime
and, per level, the level number with the written width and height. -/
structure CachedPyramidMeta where
  source_mtime : ℚ
  levels : List (ℕ × ℕ × ℕ)
deriving DecidableEq

/-- Filesystem state consulted by `create_rgb_pyramids`: whether the
source exists, its current mtime, and the parsed sidecar metadata
(`none` when the file is missing or unparsable, which the source treats
as a cache miss). -/
structure RgbPyramidEnv where
  source : Option RasterFile
  source_mtime : ℚ
  cached_meta : Option CachedPyramidMeta

/-- Outcome of one `create_rgb_pyramids` call: the returned metadata, the
cache flag, and the writes performed (level numbers plus the sidecar). -/
structure RgbBuildOutput where
  pyramid_info : CachedPyramidMeta
  cached : Bool
  level_writes : List ℕ
  metadata_written : Bool
deriving DecidableEq

/-- `create_rgb_pyramids`: missing source is fatal, `num_levels` must be
1..5, then a cache hit (`rgb_mtime <= cached_mtime`, with `check_cache`
on and a readable sidecar) returns the cached metadata with no writes;
otherwise every level is resampled and written and the sidecar is written
last.  (The `output_dir.mkdir` call is directory creation, not a level
write, and is not recorded.) -/
def create_rgb_pyramids (env : RgbPyramidEnv) (source_resolution : ℚ)
    (num_levels : ℕ) (check_cache : Bool) : Except String RgbBuildOutput :=
  match env.source with
  | none => .error "RGB file not found"
  | some src =>
    if num_levels < 1 ∨ 5 < num_levels then
      .error "num_levels must be between 1 and 5"
    else
      match check_cache, env.cached_meta with
      | true, some m =>
        if env.source_mtime ≤ m.source_mtime then
          .ok { pyramid_info := m, cached := true, level_writes := []
                metadata_written := false }
        else
          .ok { pyramid_info :=
                  ⟨env.source_mtime,
                   (List.range num_levels).map (fun l =>
                     (l, (rgbLevelShape src source_resolution l).2,
                      (rgbLevelShape src source_resolution l).1))⟩
                cached := false
                level_writes := List.range num_levels
                metadata_written := true }
      | _, _ =>
        .ok { pyramid_info :=
                ⟨env.source_mtime,
                 (List.range num_levels).map (fun l =>
                   (l, (rgbLevelShape src source_resolution l).2,
                    (rgbLevelShape src source_resolution l).1))⟩
              cached := false
              level_writes := List.range num_levels
              metadata_written := true }

/-! ## Viewport (embedding) pyramid builder
Embedding of `create_pyramids_for_viewport`, `create_pyramid_level` and
`create_rgb_from_embeddings`
(src/backend/processing/create_viewport_pyramids.py). -/

/-- `TARGET_SIZE = 4408`: the constant output size of levels produced by
`create_pyramid_level`. -/
def TARGET_SIZE : ℕ := 4408

/-- `NUM_ZOOM_LEVELS = 6`. -/
def NUM_ZOOM_LEVELS : ℕ := 6

/-- `create_pyramid_level`: read the input, downsample 2x to
`(max(1, int(h/2)), max(1, int(w/2)))`, then upsample every band back to
`(target_size, target_size)`; the output raster therefore always has the
target dimensions, whatever the input had. -/
def create_pyramid_level (input : RasterFile) (target_size : ℕ) :
    RasterFile :=
  { height := target_size, width := target_size, bands := input.bands }

/-- `create_rgb_from_embeddings`: a 3-band raster with the embedding
grid's own height and width (level 0 is this file, renamed, with no
resizing). -/
def create_rgb_from_embeddings (h w : ℕ) : RasterFile :=
  { height := h, width := w, bands := 3 }

/-- Level `k` of the viewport pyramid for an `h x w` embedding grid:
level 0 is the RGB render of the grid, and each further level applies
`create_pyramid_level` to its predecessor. -/
def viewportLevel (h w : ℕ) : ℕ → RasterFile
  | 0 => create_rgb_from_embeddings h w
  | n + 1 => create_pyramid_level (viewportLevel h w n) TARGET_SIZE

/-- The list of level files `level_0.tif .. level_5.tif` produced by
`create_pyramids_for_viewport` for one year from an `h x w` grid. -/
def create_pyramids_for_viewport (h w : ℕ) : List RasterFile :=
  (List.range NUM_ZOOM_LEVELS).map (viewportLevel h w)

/-! ## Tile servers
Embedding of `get_tile` (src/tile_server.py) and `get_sentinel2_tile`
(src/backend/tile_server.py).  Filesystem reality (whether the level file
exists, whether opening/reading it raises) is passed in as flags; each
endpoint also returns the list of filesystem paths it probes, so that
"no filesystem access before validation" is expressible. -/

/-- An HTTP response of a tile endpoint, as far as the claims are
concerned: a 400 rejection, a fully transparent RGBA tile of the given
pixel size, or a rendered image tile of the given size. -/
inductive TileResponse where
  | badRequest (msg : String)
  | transparent (size : ℕ)
  | image (size : ℕ)
deriving DecidableEq

/-- `TILE_SIZE = 256` in `get_tile`. -/
def TILE_SIZE : ℕ := 256

/-- `DEFAULT_TILE_SIZE = 2048` in the backend tile server. -/
def DEFAULT_TILE_SIZE : ℕ := 2048

/-- Modelled from the spec: `validate_viewport_name` is imported from
`lib.viewport_utils` by both servers but is missing from the sources
(only callers exist).  The spec (4.2 step 1 and section 7) describes it
as validating the viewport identifier against an allow-list,
raising `ValueError` on anything else.  Modelled as membership of the
caller-supplied allow-list. -/
def validate_viewport_name (allow : List String) (name : String) : Bool :=
  allow.contains name

/-- `_VALID_MAP_IDS`: the years 2017..2025 plus `satellite` and `rgb`. -/
def VALID_MAP_IDS : List String :=
  ["2017", "2018", "2019", "2020", "2021", "2022", "2023", "2024", "2025",
   "satellite", "rgb"]

/-- A bounding box handed to the pixel-window computation, in EPSG:4326. -/
structure BboxQ where
  lon_min : ℚ
  lat_min : ℚ
  lon_max : ℚ
  lat_max : ℚ

/-- `get_tile` (src/tile_server.py, lines 87-205): validate the two
identifiers, then resolve the level file (missing file means a
transparent tile), then convert the bbox to a fractional pixel window
with `rasterio.windows.from_bounds` — for the axis-aligned transforms in
use, `col_off = (lon_min - c) / a`, `row_off = (lat_max - f) / e`,
`width = (lon_max - lon_min) / a`, `height = (lat_min - lat_max) / e` —
round each with Python `round`, return a transparent tile when the
rounded window or its clamp to the raster is empty, and degrade any
open/read failure (`openOk`/`readOk` false) to a transparent tile. -/
def get_tile (allow : List String) (viewport map_id : String)
    (file : Option RasterFile) (gt : Geotransform) (openOk readOk : Bool)
    (bbox : BboxQ) : TileResponse × List String :=
  if ¬ validate_viewport_name allow viewport then
    (.badRequest "Invalid viewport name", [])
  else if ¬ VALID_MAP_IDS.contains map_id then
    (.badRequest "Invalid map_id", [])
  else
    match file with
    | none => (.transparent TILE_SIZE, [viewport ++ "/" ++ map_id])
    | some src =>
      if ¬ openOk then (.transparent TILE_SIZE, [viewport ++ "/" ++ map_id])
      else if pyround ((bbox.lon_max - bbox.lon_min) / gt.a) ≤ 0 ∨
              pyround ((bbox.lat_min - bbox.lat_max) / gt.e) ≤ 0 then
        (.transparent TILE_SIZE, [viewport ++ "/" ++ map_id])
      else if min (src.width : ℤ)
                (pyround ((bbox.lon_min - gt.c) / gt.a) +
                 pyround ((bbox.lon_max - bbox.lon_min) / gt.a)) -
              max 0 (pyround ((bbox.lon_min - gt.c) / gt.a)) ≤ 0 ∨
            min (src.height : ℤ)
                (pyround ((bbox.lat_max - gt.f) / gt.e) +
                 pyround ((bbox.lat_min - bbox.lat_max) / gt.e)) -
              max 0 (pyround ((bbox.lat_max - gt.f) / gt.e)) ≤ 0 then
        (.transparent TILE_SIZE, [viewport ++ "/" ++ map_id])
      else if ¬ readOk then (.transparent TILE_SIZE, [viewport ++ "/" ++ map_id])
      else (.image TILE_SIZE, [viewport ++ "/" ++ map_id])

/-- `get_sentinel2_tile` (src/backend/tile_server.py, lines 173-214): the
path is built directly from the raw `viewport_id` and probed with
`tif_path.exists()` — there is no identifier validation of any kind —
then a missing file or a read failure degrades to a transparent tile. -/
def get_sentinel2_tile (viewport_id : String) (year : ℤ)
    (fileExists readOk : Bool) : TileResponse × List String :=
  let path := viewport_id ++ "/sentinel2/" ++ toString year ++ "_rgb.tif"
  if ¬ fileExists then (.transparent DEFAULT_TILE_SIZE, [path])
  else if ¬ readOk then (.transparent DEFAULT_TILE_SIZE, [path])
  else (.image DEFAULT_TILE_SIZE, [path])

/-! ## Geotransform utility `tile_to_bbox`
The latitude edges go through `atan(sinh(pi * (1 - 2y/n)))`, so this one
embedding lives over `ℝ`. -/

/-- A bounding box over `ℝ` as returned by `tile_to_bbox`. -/
structure Bbox where
  lon_min : ℝ
  lat_min : ℝ
  lon_max : ℝ
  lat_max : ℝ

open Real in
/-- `tile_to_bbox(x, y, zoom)` (identical in src/tile_server.py lines
75-85 and src/backend/tile_server.py lines 90-104): longitude linear in
`x`, latitude via `degrees(atan(sinh(pi * (1 - 2y/n))))` with
`n = 2.0 ** zoom`. -/
noncomputable def tile_to_bbox (x y zoom : ℕ) : Bbox :=
  let n : ℝ := 2 ^ zoom
  { lon_min := x / n * 360 - 180
    lat_min := arctan (sinh (π * (1 - 2 * (y + 1) / n))) * (180 / π)
    lon_max := (x + 1) / n * 360 - 180
    lat_max := arctan (sinh (π * (1 - 2 * y / n))) * (180 / π) }

/-- The Web Mercator latitude limit `degrees(atan(sinh(pi)))`, the
latitude edge that `tile_to_bbox` assigns to `y = 0` at any zoom. -/
noncomputable def mercMaxLat : ℝ :=
  Real.arctan (Real.sinh Real.pi) * (180 / Real.pi)

/-! ## Similarity-index build
Embedding of `create_faiss_index_for_year` (src/create_faiss_index.py).
The mosaic raster is a header plus a total function from pixel
coordinates to the 128-band vector stored there; the build's effect is
its boolean result plus the list of artefact files it writes, in order.
The approximate (IVF-PQ) training step is treated as succeeding; the
claim under verification only concerns the exact-search artefacts, which
are written after the all-zero check. -/

/-- The embedding mosaic consulted by the index build. -/
structure MosaicFile where
  width : ℕ
  height : ℕ
  gt : Geotransform
  grid : ℤ → ℤ → Vec

/-- Clamp a pixel index into `[0, limit - 1]`:
`max(0, min(v, limit - 1))`. -/
def clampPixel (v : ℤ) (limit : ℕ) : ℤ := max 0 (min v ((limit : ℤ) - 1))

/-- The clipped pixel rectangle of the build: truncate the bound/transform
quotients to ints, clamp into the mosaic, and swap so min is not above
max.  Returns `(min_x, max_x, min_y, max_y)`. -/
def clippedBounds (m : MosaicFile) (bounds : ℚ × ℚ × ℚ × ℚ) : ℤ × ℤ × ℤ × ℤ :=
  let gt := m.gt
  let pixel_min_x := clampPixel (pytrunc ((bounds.1 - gt.c) / gt.a)) m.width
  let pixel_max_x := clampPixel (pytrunc ((bounds.2.2.1 - gt.c) / gt.a)) m.width
  let pixel_min_y := clampPixel (pytrunc ((bounds.2.2.2 - gt.f) / gt.e)) m.height
  let pixel_max_y := clampPixel (pytrunc ((bounds.2.1 - gt.f) / gt.e)) m.height
  (min pixel_min_x pixel_max_x, max pixel_min_x pixel_max_x,
   min pixel_min_y pixel_max_y, max pixel_min_y pixel_max_y)

/-- The pixel coordinates read into `all_embeddings` / `pixel_coords`, in
storage order: rows `y` in `[min_y, max_y)`, and within each row columns
`x` in `[min_x, max_x)` (both `range` stops are exclusive). -/
def clippedPixels (min_x max_x min_y max_y : ℤ) : List (ℤ × ℤ) :=
  (List.range (max_y - min_y).toNat).flatMap (fun dy =>
    (List.range (max_x - min_x).toNat).map (fun dx =>
      (min_x + (dx : ℤ), min_y + (dy : ℤ))))

/-- `np.count_nonzero(all_embeddings) == 0`: every component of every
clipped vector is zero (vacuously true of an empty clip). -/
def allEmbeddingsZero (m : MosaicFile) (bounds : ℚ × ℚ × ℚ × ℚ) : Bool :=
  let cb := clippedBounds m bounds
  (clippedPixels cb.1 cb.2.1 cb.2.2.1 cb.2.2.2).all (fun p =>
    (m.grid p.1 p.2).all (fun c => decide (c = 0)))

/-- Result of one `create_faiss_index_for_year` call: the returned
boolean and the artefact files written, in write order. -/
structure FaissBuildOutput where
  success : Bool
  writes : List String
deriving DecidableEq

/-- `create_faiss_index_for_year`: fail with no writes when FAISS is
missing or the mosaic file is absent; write the approximate index, then
reject an all-zero embedding matrix (`return False`) before any
exact-search artefact is written; otherwise write the embedding matrix,
the coordinate table and the metadata, in that order. -/
def create_faiss_index_for_year (faiss_installed : Bool)
    (mosaic : Option MosaicFile) (bounds : ℚ × ℚ × ℚ × ℚ) : FaissBuildOutput :=
  if ¬ faiss_installed then ⟨false, []⟩
  else
    match mosaic with
    | none => ⟨false, []⟩
    | some m =>
      if allEmbeddingsZero m bounds then ⟨false, ["embeddings.index"]⟩
      else ⟨true, ["embeddings.index", "all_embeddings.npy",
                   "pixel_coords.npy", "metadata.json"]⟩

example : distSq [1, 2, 3/2] [0, 0, 1/2] = 6 := by with_unfolding_all decide

/-! ## C4: pyramid-build cache hit -/

/-- C4: a pyramid build whose source mtime has not advanced past the mtime
recorded in the (readable) cached sidecar metadata performs zero
level-file writes, does not rewrite the sidecar, and returns the cached
metadata unchanged.  (`check_cache` is the parameter the source defaults
to `True`; the source additionally sets a `cached: True` key on the
returned dict, modelled by the separate `cached` flag.) -/
theorem C4_cache_hit (env : RgbPyramidEnv) (src : RasterFile)
    (m : CachedPyramidMeta) (res : ℚ) (n : ℕ)
    (hsrc : env.source = some src) (hm : env.cached_meta = some m)
    (hn1 : 1 ≤ n) (hn5 : n ≤ 5)
    (hmt : env.source_mtime ≤ m.source_mtime) :
    create_rgb_pyramids env res n true =
      .ok { pyramid_info := m, cached := true, level_writes := []
            metadata_written := false } := by
  unfold create_rgb_pyramids
  rw [hsrc, hm]
  have h1 : ¬ (n < 1 ∨ 5 < n) := by omega
  simp only [h1, if_false, if_pos hmt]

/-- C4 witness: a concrete unchanged-source second invocation returns the
cached metadata with no writes. -/
theorem C4_witness :
    create_rgb_pyramids
        { source := some ⟨16, 16, 3⟩, source_mtime := 5
          cached_meta := some ⟨7, [(0, 16, 16)]⟩ } 1 3 true =
      .ok { pyramid_info := ⟨7, [(0, 16, 16)]⟩, cached := true
            level_writes := [], metadata_written := false } :=
  C4_cache_hit _ _ _ _ _ rfl rfl (by decide) (by decide)
    (by with_unfolding_all decide)

/-! ## C6: all-zero embedding matrix rejected at index-build time -/

/-- C6: when every clipped embedding vector of the mosaic is entirely
zero, the index build fails and none of the exact-search artefacts
(embedding matrix, coordinate table, metadata) is written. -/
theorem C6_all_zero_rejected (m : MosaicFile) (bounds : ℚ × ℚ × ℚ × ℚ)
    (hz : ∀ x y : ℤ, ∀ c ∈ m.grid x y, c = 0) :
    (create_faiss_index_for_year true (some m) bounds).success = false ∧
    "all_embeddings.npy" ∉ (create_faiss_index_for_year true (some m) bounds).writes ∧
    "pixel_coords.npy" ∉ (create_faiss_index_for_year true (some m) bounds).writes ∧
    "metadata.json" ∉ (create_faiss_index_for_year true (some m) bounds).writes := by
  have hzero : allEmbeddingsZero m bounds = true := by
    unfold allEmbeddingsZero
    rw [List.all_eq_true]
    intro p _
    rw [List.all_eq_true]
    intro c hc
    exact decide_eq_true (hz _ _ c hc)
  have hres : create_faiss_index_for_year true (some m) bounds =
      ⟨false, ["embeddings.index"]⟩ := by
    unfold create_faiss_index_for_year
    simp [hzero]
  rw [hres]
  refine ⟨rfl, ?_, ?_, ?_⟩ <;> simp

/-- C6 witness: a concrete all-zero 4x4 mosaic is rejected with only the
approximate-index file written. -/
theorem C6_witness :
    (create_faiss_index_for_year true
        (some ⟨4, 4, ⟨1, 0, 0, 0, -1, 0⟩, fun _ _ => [0, 0]⟩)
        (0, 0, 1, 1)).success = false ∧
    "all_embeddings.npy" ∉
      (create_faiss_index_for_year true
        (some ⟨4, 4, ⟨1, 0, 0, 0, -1, 0⟩, fun _ _ => [0, 0]⟩)
        (0, 0, 1, 1)).writes := by
  have h := C6_all_zero_rejected
    ⟨4, 4, ⟨1, 0, 0, 0, -1, 0⟩, fun _ _ => [0, 0]⟩ (0, 0, 1, 1)
    (by intro x y c hc; simp at hc; simp [hc])
  exact ⟨h.1, h.2.1⟩

/-! ## C5: graceful degradation of tile requests
Helper facts about Python rounding, used to show that a bbox fully
outside the raster always yields an empty (clamped) read window. -/

lemma floor_le_pyround (x : ℚ) : Int.floor x ≤ pyround x := by
  unfold pyround
  split_ifs <;> omega

lemma pyround_cast_le (x : ℚ) : (pyround x : ℚ) ≤ x + 1/2 := by
  have h0 : (Int.floor x : ℚ) ≤ x := Int.floor_le x
  unfold pyround
  split_ifs with h1 h2 h3 <;> push_cast <;> linarith

lemma le_pyround_cast (x : ℚ) : x - 1/2 ≤ (pyround x : ℚ) := by
  have h0 : x - 1 < (Int.floor x : ℚ) := Int.sub_one_lt_floor x
  unfold pyround
  split_ifs with h1 h2 h3 <;> push_cast <;> linarith

lemma pyround_even_of_eq (x : ℚ) (h : (pyround x : ℚ) = x + 1/2) :
    pyround x % 2 = 0 := by
  have h0 : (Int.floor x : ℚ) ≤ x := Int.floor_le x
  unfold pyround at h ⊢
  split_ifs at h ⊢ with h1 h2 h3
  · exfalso
    linarith
  · exfalso
    push_cast at h
    linarith
  · exact h3
  · omega

/-- Python rounding cannot push a window whose fractional right edge is
at or left of zero strictly past zero: round-half-to-even breaks the
only borderline case. -/
lemma pyround_add_nonpos (u v : ℚ) (h : u + v ≤ 0) :
    pyround u + pyround v ≤ 0 := by
  have hu := pyround_cast_le u
  have hv := pyround_cast_le v
  have hsum : ((pyround u + pyround v : ℤ) : ℚ) ≤ 1 := by push_cast; linarith
  have hsum' : pyround u + pyround v ≤ 1 := by exact_mod_cast hsum
  rcases lt_or_eq_of_le hsum' with hlt | heq
  · omega
  · exfalso
    have hcast : ((pyround u : ℤ) : ℚ) + ((pyround v : ℤ) : ℚ) = 1 := by
      exact_mod_cast heq
    have h1 : (pyround u : ℚ) = u + 1/2 := by linarith
    have h2 : (pyround v : ℚ) = v + 1/2 := by linarith
    have e1 := pyround_even_of_eq u h1
    have e2 := pyround_even_of_eq v h2
    omega

lemma le_pyround_of_cast_le (x : ℚ) (W : ℤ) (h : (W : ℚ) ≤ x) :
    W ≤ pyround x :=
  le_trans (Int.le_floor.mpr h) (floor_le_pyround x)

/-- On one axis, a requested window whose fractional extent ends at or
before the raster start (`u + v ≤ 0`) or starts at or after the raster
end (`W ≤ u`) clamps to an empty read window. -/
lemma window_axis_empty (u v : ℚ) (W : ℤ)
    (h : u + v ≤ 0 ∨ (W : ℚ) ≤ u) :
    min W (pyround u + pyround v) - max 0 (pyround u) ≤ 0 := by
  rcases h with h | h
  · have h2 := pyround_add_nonpos u v h
    have h3 : min W (pyround u + pyround v) ≤ pyround u + pyround v :=
      min_le_right _ _
    have h4 : (0 : ℤ) ≤ max 0 (pyround u) := le_max_left _ _
    omega
  · have h2 : W ≤ pyround u := le_pyround_of_cast_le u W h
    have h3 : min W (pyround u + pyround v) ≤ W := min_le_left _ _
    have h4 : pyround u ≤ max 0 (pyround u) := le_max_right _ _
    omega

/-- C5: with validated identifiers, a missing level file, a failing
open, or a failing read all answer a fully transparent tile of the
configured size rather than an error, on both tile endpoints; and a
request whose bbox lies fully outside the raster's extent (left, right,
above, or below, for the axis-aligned transforms in use with
`a > 0 > e`) also answers a transparent tile of the configured size. -/
theorem C5_transparent_degradation (allow : List String)
    (viewport map_id : String) (gt : Geotransform) (bbox : BboxQ)
    (hv : validate_viewport_name allow viewport = true)
    (hmv : VALID_MAP_IDS.contains map_id = true)
    (ha : 0 < gt.a) (he : gt.e < 0) :
    (∀ openOk readOk : Bool,
      (get_tile allow viewport map_id none gt openOk readOk bbox).1 =
        TileResponse.transparent TILE_SIZE) ∧
    (∀ src : RasterFile, ∀ readOk : Bool,
      (get_tile allow viewport map_id (some src) gt false readOk bbox).1 =
        TileResponse.transparent TILE_SIZE) ∧
    (∀ src : RasterFile, ∀ openOk : Bool,
      (get_tile allow viewport map_id (some src) gt openOk false bbox).1 =
        TileResponse.transparent TILE_SIZE) ∧
    (∀ src : RasterFile, ∀ openOk readOk : Bool,
      (bbox.lon_max ≤ gt.c ∨
       gt.c + gt.a * src.width ≤ bbox.lon_min ∨
       gt.f ≤ bbox.lat_min ∨
       bbox.lat_max ≤ gt.f + gt.e * src.height) →
      (get_tile allow viewport map_id (some src) gt openOk readOk bbox).1 =
        TileResponse.transparent TILE_SIZE) ∧
    (∀ viewport_id : String, ∀ year : ℤ, ∀ ro : Bool,
      (get_sentinel2_tile viewport_id year false ro).1 =
        TileResponse.transparent DEFAULT_TILE_SIZE) ∧
    (∀ viewport_id : String, ∀ year : ℤ, ∀ fe : Bool,
      (get_sentinel2_tile viewport_id year fe false).1 =
        TileResponse.transparent DEFAULT_TILE_SIZE) := by
  have hwin : ∀ src : RasterFile, ∀ openOk readOk : Bool,
      (bbox.lon_max ≤ gt.c ∨
       gt.c + gt.a * src.width ≤ bbox.lon_min ∨
       gt.f ≤ bbox.lat_min ∨
       bbox.lat_max ≤ gt.f + gt.e * src.height) →
      (get_tile allow viewport map_id (some src) gt openOk readOk bbox).1 =
        TileResponse.transparent TILE_SIZE := by
    intro src openOk readOk hout
    have hcond :
        min (src.width : ℤ)
            (pyround ((bbox.lon_min - gt.c) / gt.a) +
             pyround ((bbox.lon_max - bbox.lon_min) / gt.a)) -
          max 0 (pyround ((bbox.lon_min - gt.c) / gt.a)) ≤ 0 ∨
        min (src.height : ℤ)
            (pyround ((bbox.lat_max - gt.f) / gt.e) +
             pyround ((bbox.lat_min - bbox.lat_max) / gt.e)) -
          max 0 (pyround ((bbox.lat_max - gt.f) / gt.e)) ≤ 0 := by
      rcases hout with h | h | h | h
      · refine Or.inl (window_axis_empty _ _ _ (Or.inl ?_))
        have hq : (bbox.lon_min - gt.c) / gt.a +
            (bbox.lon_max - bbox.lon_min) / gt.a =
            (bbox.lon_max - gt.c) / gt.a := by
          rw [div_add_div_same]
          ring_nf
        rw [hq]
        exact div_nonpos_iff.mpr (Or.inr ⟨by linarith, ha.le⟩)
      · refine Or.inl (window_axis_empty _ _ _ (Or.inr ?_))
        rw [le_div_iff ha]
        push_cast
        linarith
      · refine Or.inr (window_axis_empty _ _ _ (Or.inl ?_))
        have hq : (bbox.lat_max - gt.f) / gt.e +
            (bbox.lat_min - bbox.lat_max) / gt.e =
            (bbox.lat_min - gt.f) / gt.e := by
          rw [div_add_div_same]
          ring_nf
        rw [hq]
        exact div_nonpos_iff.mpr (Or.inl ⟨by linarith, he.le⟩)
      · refine Or.inr (window_axis_empty _ _ _ (Or.inr ?_))
        rw [le_div_iff_of_neg he]
        push_cast
        linarith
    simp only [get_tile]
    split_ifs <;> simp_all
  refine ⟨?_, ?_, ?_, hwin, ?_, ?_⟩
  · intro openOk readOk
    simp only [get_tile]
    split_ifs <;> simp_all
  · intro src readOk
    simp only [get_tile]
    split_ifs <;> simp_all
  · intro src openOk
    simp only [get_tile]
    split_ifs <;> simp_all
  · intro viewport_id year ro
    simp only [get_sentinel2_tile]
    split_ifs <;> simp_all
  · intro viewport_id year fe
    simp only [get_sentinel2_tile]
    split_ifs <;> simp_all

/-- C5 witness: a concrete out-of-extent request and a concrete
missing-file request both answer transparent tiles. -/
theorem C5_witness :
    (get_tile ["blr"] "blr" "2024" (some ⟨10, 10, 3⟩) ⟨1, 0, 0, 0, -1, 0⟩
        true true ⟨20, 5, 21, 6⟩).1 = TileResponse.transparent TILE_SIZE ∧
    (get_tile ["blr"] "blr" "2024" none ⟨1, 0, 0, 0, -1, 0⟩
        true true ⟨20, 5, 21, 6⟩).1 = TileResponse.transparent TILE_SIZE := by
  have h := C5_transparent_degradation ["blr"] "blr" "2024"
    ⟨1, 0, 0, 0, -1, 0⟩ ⟨20, 5, 21, 6⟩ (by with_unfolding_all decide)
    (by with_unfolding_all decide) (by norm_num) (by norm_num)
  exact ⟨h.2.2.2.1 ⟨10, 10, 3⟩ true true (Or.inr (Or.inl (by norm_num))),
         h.1 true true⟩

/-! ## C1, C2, C10: search ordering, exactness, and the result cap -/

/-- The indices the endpoint silently drops when the cap engages: the
tail of the distance-sorted match list beyond `MAX_RESULTS`. -/
def droppedIndices (embs : List Vec) (query : Vec) (tsq : ℚ) : List ℕ :=
  ((similarIndices embs query tsq).mergeSort
    (fun i j => decide (dsqAt embs query i ≤ dsqAt embs query j))).drop MAX_RESULTS

lemma search_eq (embs : List Vec) (coords : List (ℤ × ℤ)) (gt : Geotransform)
    (query : Vec) (tsq : ℚ) :
    api_search_similar_embeddings embs coords gt query tsq =
      { matchList :=
          (if MAX_RESULTS < (similarIndices embs query tsq).length
           then cappedIndices embs query tsq
           else similarIndices embs query tsq).map (mkMatch coords gt embs query)
        total_pixels := embs.length
        matches_found :=
          (if MAX_RESULTS < (similarIndices embs query tsq).length
           then cappedIndices embs query tsq
           else similarIndices embs query tsq).length
        min_match_dsq :=
          ((similarIndices embs query tsq).map (dsqAt embs query)).min? } := rfl

lemma dsq_mkMatch (coords : List (ℤ × ℤ)) (gt : Geotransform)
    (embs : List Vec) (query : Vec) (i : ℕ) :
    (mkMatch coords gt embs query i).dsq = dsqAt embs query i := rfl

lemma mergeSort_dsq_pairwise (embs : List Vec) (query : Vec) (l : List ℕ) :
    List.Pairwise (fun i j => dsqAt embs query i ≤ dsqAt embs query j)
      (l.mergeSort (fun i j => decide (dsqAt embs query i ≤ dsqAt embs query j))) := by
  have h := @List.sorted_mergeSort ℕ
    (fun i j => decide (dsqAt embs query i ≤ dsqAt embs query j))
    (fun a b c hab hbc => by
      simp only [decide_eq_true_eq] at hab hbc ⊢
      exact le_trans hab hbc)
    (fun a b => by
      simp only [Bool.or_eq_true, decide_eq_true_eq]
      exact le_total _ _)
    l
  exact h.imp (fun hab => by simpa using hab)

lemma capped_length (embs : List Vec) (query : Vec) (tsq : ℚ)
    (h : MAX_RESULTS < (similarIndices embs query tsq).length) :
    (cappedIndices embs query tsq).length = MAX_RESULTS := by
  unfold cappedIndices
  rw [List.length_take, List.length_mergeSort]
  omega

lemma capped_pairwise (embs : List Vec) (query : Vec) (tsq : ℚ) :
    List.Pairwise (fun i j => dsqAt embs query i ≤ dsqAt embs query j)
      (cappedIndices embs query tsq) :=
  List.Pairwise.sublist (List.take_sublist _ _) (mergeSort_dsq_pairwise embs query _)

lemma capped_append_dropped (embs : List Vec) (query : Vec) (tsq : ℚ) :
    (cappedIndices embs query tsq ++ droppedIndices embs query tsq).Perm
      (similarIndices embs query tsq) := by
  unfold cappedIndices droppedIndices
  rw [List.take_append_drop]
  exact List.mergeSort_perm _ _

lemma kept_le_dropped (embs : List Vec) (query : Vec) (tsq : ℚ) :
    ∀ i ∈ cappedIndices embs query tsq, ∀ j ∈ droppedIndices embs query tsq,
      dsqAt embs query i ≤ dsqAt embs query j := by
  have h := mergeSort_dsq_pairwise embs query (similarIndices embs query tsq)
  rw [← List.take_append_drop MAX_RESULTS
    ((similarIndices embs query tsq).mergeSort
      (fun i j => decide (dsqAt embs query i ≤ dsqAt embs query j)))] at h
  exact (List.pairwise_append.mp h).2.2

lemma mem_similarIndices (embs : List Vec) (query : Vec) (tsq : ℚ) (i : ℕ) :
    i ∈ similarIndices embs query tsq ↔
      i < embs.length ∧ dsqAt embs query i ≤ tsq := by
  simp [similarIndices, List.mem_filter, List.mem_range]

/-- C10: the response never holds more than `MAX_RESULTS` matches, and
when more than `MAX_RESULTS` stored vectors fall within the threshold
the endpoint returns exactly `MAX_RESULTS` matches, namely the
distance-sorted prefix: kept and dropped indices together are exactly
the within-threshold indices, and every kept distance is at most every
dropped distance. -/
theorem C10_result_cap (embs : List Vec) (coords : List (ℤ × ℤ))
    (gt : Geotransform) (query : Vec) (tsq : ℚ) :
    ((api_search_similar_embeddings embs coords gt query tsq).matchList.length ≤
      MAX_RESULTS) ∧
    (MAX_RESULTS < (similarIndices embs query tsq).length →
      (api_search_similar_embeddings embs coords gt query tsq).matchList.length =
        MAX_RESULTS ∧
      (api_search_similar_embeddings embs coords gt query tsq).matchList =
        (cappedIndices embs query tsq).map (mkMatch coords gt embs query) ∧
      (cappedIndices embs query tsq ++ droppedIndices embs query tsq).Perm
        (similarIndices embs query tsq) ∧
      (∀ i ∈ cappedIndices embs query tsq, ∀ j ∈ droppedIndices embs query tsq,
        dsqAt embs query i ≤ dsqAt embs query j)) := by
  rw [search_eq]
  by_cases h : MAX_RESULTS < (similarIndices embs query tsq).length
  · simp only [if_pos h, List.length_map]
    exact ⟨le_of_eq (capped_length embs query tsq h),
      fun _ => ⟨capped_length embs query tsq h, trivial,
        capped_append_dropped embs query tsq, kept_le_dropped embs query tsq⟩⟩
  · simp only [if_neg h, List.length_map]
    exact ⟨by omega, fun hlt => absurd hlt h⟩

/-- C1 counterexample: a two-vector store whose far vector is stored
first; both fall within the threshold, no truncation happens, and the
response lists distance 4 before distance 0 — the matches are not sorted
by distance. -/
theorem C1_counterexample :
    ¬ List.Sorted (· ≤ ·)
      ((api_search_similar_embeddings [[2], [0]] [(0, 0), (1, 0)]
        ⟨1, 0, 0, 0, -1, 0⟩ [0] 100).matchList.map SearchMatch.dsq) := by
  with_unfolding_all decide

/-- C1 amended: when at most `MAX_RESULTS` entries fall within the
threshold the endpoint returns the matches in storage-index order (no
sort happens); only when more than `MAX_RESULTS` match is the list
sorted ascending by distance and truncated to the cap. -/
theorem C1_sort_only_on_truncation (embs : List Vec) (coords : List (ℤ × ℤ))
    (gt : Geotransform) (query : Vec) (tsq : ℚ) :
    ((similarIndices embs query tsq).length ≤ MAX_RESULTS →
      (api_search_similar_embeddings embs coords gt query tsq).matchList =
        (similarIndices embs query tsq).map (mkMatch coords gt embs query)) ∧
    (MAX_RESULTS < (similarIndices embs query tsq).length →
      List.Sorted (· ≤ ·)
        ((api_search_similar_embeddings embs coords gt query tsq).matchList.map
          SearchMatch.dsq) ∧
      (api_search_similar_embeddings embs coords gt query tsq).matchList.length =
        MAX_RESULTS) := by
  rw [search_eq]
  constructor
  · intro h
    rw [if_neg (by omega)]
  · intro h
    rw [if_pos h]
    refine ⟨?_, by rw [List.length_map]; exact capped_length embs query tsq h⟩
    rw [List.map_map]
    have hp := capped_pairwise embs query tsq
    exact hp.map _ (fun hab => by
      simpa [Function.comp, dsq_mkMatch] using hab)

/-! Concrete stores for the cap-engaging witnesses: 250001 copies of the
zero vector, all within any nonnegative threshold. -/

def bigN : ℕ := 250001

def bigEmbs : List Vec := List.replicate bigN [0]

def bigCoords : List (ℤ × ℤ) := List.replicate bigN (0, 0)

/-- An axis-aligned unit geotransform used in concrete witnesses. -/
def exampleGt : Geotransform := ⟨1, 0, 0, 0, -1, 0⟩

lemma getD_replicate {α : Type} (n i : ℕ) (a d : α) (h : i < n) :
    (List.replicate n a).getD i d = a := by
  rw [List.getD_eq_getElem?_getD, List.getElem?_replicate, if_pos h]
  rfl

lemma similar_big : similarIndices bigEmbs [0] 1 = List.range bigN := by
  unfold similarIndices
  rw [show bigEmbs.length = bigN from List.length_replicate bigN [0]]
  rw [List.filter_eq_self.mpr]
  intro i hi
  rw [List.mem_range] at hi
  apply decide_eq_true
  unfold dsqAt bigEmbs
  rw [getD_replicate bigN i [0] [] hi]
  norm_num [distSq]

lemma similar_big_len : (similarIndices bigEmbs [0] 1).length = bigN := by
  rw [similar_big, List.length_range]

/-- C10 witness: a store of 250001 in-threshold vectors engages the cap
and the response holds exactly 250000 matches. -/
theorem C10_witness :
    MAX_RESULTS < (similarIndices bigEmbs [0] 1).length ∧
    (api_search_similar_embeddings bigEmbs bigCoords exampleGt [0] 1).matchList.length =
      MAX_RESULTS := by
  have hlt : MAX_RESULTS < (similarIndices bigEmbs [0] 1).length := by
    rw [similar_big_len]
    decide
  exact ⟨hlt, ((C10_result_cap bigEmbs bigCoords exampleGt [0] 1).2 hlt).1⟩

/-- C1 witness: below the cap the matches come back in storage-index
order, and above the cap they come back sorted with exactly
`MAX_RESULTS` entries. -/
theorem C1_witness :
    ((similarIndices [[2], [0]] [0] 100).length ≤ MAX_RESULTS ∧
     (api_search_similar_embeddings [[2], [0]] [(0, 0), (1, 0)] exampleGt
        [0] 100).matchList =
       (similarIndices [[2], [0]] [0] 100).map
         (mkMatch [(0, 0), (1, 0)] exampleGt [[2], [0]] [0])) ∧
    (MAX_RESULTS < (similarIndices bigEmbs [0] 1).length ∧
     List.Sorted (· ≤ ·)
       ((api_search_similar_embeddings bigEmbs bigCoords exampleGt [0] 1).matchList.map
         SearchMatch.dsq)) := by
  have hle : (similarIndices [[2], [0]] [0] 100).length ≤ MAX_RESULTS := by
    with_unfolding_all decide
  have hlt : MAX_RESULTS < (similarIndices bigEmbs [0] 1).length := by
    rw [similar_big_len]
    decide
  exact ⟨⟨hle, (C1_sort_only_on_truncation [[2], [0]] [(0, 0), (1, 0)] exampleGt
      [0] 100).1 hle⟩,
    ⟨hlt, ((C1_sort_only_on_truncation bigEmbs bigCoords exampleGt [0] 1).2 hlt).1⟩⟩

/-- C2 counterexample: with 250001 stored vectors all at distance 0 from
the query and threshold 1, the response does not contain one match per
within-threshold vector — the cap silently drops one — so search does
not return exactly the vectors within the threshold for every store. -/
theorem C2_counterexample :
    (api_search_similar_embeddings bigEmbs bigCoords exampleGt [0] 1).matchList.length ≠
      (similarIndices bigEmbs [0] 1).length := by
  have hlt : MAX_RESULTS < (similarIndices bigEmbs [0] 1).length := by
    rw [similar_big_len]
    decide
  have hcap : (api_search_similar_embeddings bigEmbs bigCoords exampleGt
      [0] 1).matchList.length = MAX_RESULTS := by
    rw [search_eq]
    simp only [if_pos hlt, List.length_map]
    exact capped_length bigEmbs [0] 1 hlt
  rw [hcap, similar_big_len]
  decide

/-- C2 amended: provided at most `MAX_RESULTS` entries fall within the
threshold, the response contains exactly the within-threshold stored
vectors (each converted to lon/lat from its pixel coordinate), and the
closest-match statistic equals the true minimum distance among the
matches. -/
theorem C2_exact_below_cap (embs : List Vec) (coords : List (ℤ × ℤ))
    (gt : Geotransform) (query : Vec) (tsq : ℚ)
    (h : (similarIndices embs query tsq).length ≤ MAX_RESULTS) :
    ((api_search_similar_embeddings embs coords gt query tsq).matchList =
      (similarIndices embs query tsq).map (mkMatch coords gt embs query)) ∧
    (∀ m ∈ (api_search_similar_embeddings embs coords gt query tsq).matchList,
      ∃ i, i < embs.length ∧ dsqAt embs query i ≤ tsq ∧
        m = mkMatch coords gt embs query i) ∧
    (∀ i, i < embs.length → dsqAt embs query i ≤ tsq →
      mkMatch coords gt embs query i ∈
        (api_search_similar_embeddings embs coords gt query tsq).matchList) ∧
    ((api_search_similar_embeddings embs coords gt query tsq).min_match_dsq =
      ((api_search_similar_embeddings embs coords gt query tsq).matchList.map
        SearchMatch.dsq).min?) := by
  have heq : (api_search_similar_embeddings embs coords gt query tsq).matchList =
      (similarIndices embs query tsq).map (mkMatch coords gt embs query) := by
    rw [search_eq]
    rw [if_neg (by omega)]
  refine ⟨heq, ?_, ?_, ?_⟩
  · intro m hm
    rw [heq, List.mem_map] at hm
    obtain ⟨i, hi, hmi⟩ := hm
    rw [mem_similarIndices] at hi
    exact ⟨i, hi.1, hi.2, hmi.symm⟩
  · intro i hilen hid
    rw [heq, List.mem_map]
    exact ⟨i, (mem_similarIndices embs query tsq i).mpr ⟨hilen, hid⟩, rfl⟩
  · rw [heq, List.map_map]
    have hfun : SearchMatch.dsq ∘ mkMatch coords gt embs query = dsqAt embs query := by
      funext i
      rfl
    rw [search_eq, hfun]

/-- The five-vector store of the end-to-end scenario: one exact
duplicate of the query vector. -/
def embs5 : List Vec := [[2], [7], [0], [5], [9]]

def coords5 : List (ℤ × ℤ) := [(0, 0), (1, 0), (2, 0), (3, 0), (4, 0)]

/-- C2 witness: on the five-vector store with one exact duplicate of the
query, `search(query, 0)` returns exactly one match, at distance 0. -/
theorem C2_witness :
    ((api_search_similar_embeddings embs5 coords5 exampleGt [0] 0).matchList =
      (similarIndices embs5 [0] 0).map (mkMatch coords5 exampleGt embs5 [0])) ∧
    (api_search_similar_embeddings embs5 coords5 exampleGt [0] 0).matchList.map
      SearchMatch.dsq = [0] ∧
    (api_search_similar_embeddings embs5 coords5 exampleGt [0] 0).min_match_dsq =
      some 0 :=
  ⟨(C2_exact_below_cap embs5 coords5 exampleGt [0] 0
      (by with_unfolding_all decide)).1,
   by with_unfolding_all decide,
   by with_unfolding_all decide⟩

/-! ## C3: relabeling engine -/

/-- The per-pixel outcome as a total function, given valid inputs:
`some record` (with `round(sqrt(d), 4)` distances, as in `processPixel`)
when the closest label differs from the current one, `none` otherwise. -/
noncomputable def pixelStep (avgs : List (String × Vec))
    (kp : String × LabeledPixel) : Option RelabelRecord :=
  match bestLabel avgs kp.2.emb, lookupDsq avgs kp.2.emb kp.2.label with
  | some nb, some oldD =>
    if nb.1 ≠ kp.2.label then
      some ⟨kp.1, kp.2.label, nb.1, reportDist oldD, reportDist nb.2,
        kp.2.lat, kp.2.lon⟩
    else none
  | _, _ => none

lemma floor_le_pyroundR (x : ℝ) : Int.floor x ≤ pyroundR x := by
  unfold pyroundR
  split_ifs <;> omega

lemma pyroundR_le_floor_add_one (x : ℝ) : pyroundR x ≤ Int.floor x + 1 := by
  unfold pyroundR
  split_ifs <;> omega

/-- Round-half-to-even is weakly monotone (it is not strictly monotone,
which is why the emitted record distances can tie). -/
lemma pyroundR_mono {x y : ℝ} (h : x ≤ y) : pyroundR x ≤ pyroundR y := by
  have hf : Int.floor x ≤ Int.floor y := Int.floor_le_floor h
  rcases eq_or_lt_of_le hf with heq | hlt
  · unfold pyroundR
    rw [← heq]
    split_ifs <;> first | omega | (exfalso; linarith)
  · have h1 := pyroundR_le_floor_add_one x
    have h2 := floor_le_pyroundR y
    omega

lemma pyround4_mono {x y : ℝ} (h : x ≤ y) : pyround4 x ≤ pyround4 y := by
  unfold pyround4
  have h1 : pyroundR (x * 10000) ≤ pyroundR (y * 10000) :=
    pyroundR_mono (mul_le_mul_of_nonneg_right h (by norm_num))
  have h2 : ((pyroundR (x * 10000) : ℤ) : ℝ) ≤ ((pyroundR (y * 10000) : ℤ) : ℝ) := by
    exact_mod_cast h1
  linarith

lemma reportDist_mono {a b : ℚ} (h : a ≤ b) : reportDist a ≤ reportDist b := by
  unfold reportDist
  exact pyround4_mono (Real.sqrt_le_sqrt (by exact_mod_cast h))

/-- On a rational argument, the real-valued Python rounding agrees with
the rational one, so it can be evaluated. -/
lemma pyroundR_ratCast (q : ℚ) : pyroundR (q : ℝ) = pyround q := by
  have hiff1 : ((q : ℝ) - ((⌊q⌋ : ℤ) : ℝ) < 1/2) ↔ (q - ⌊q⌋ < 1/2) := by
    constructor
    · intro hc
      have h2 : ((q - (⌊q⌋ : ℤ) : ℚ) : ℝ) < ((1/2 : ℚ) : ℝ) := by
        push_cast
        exact hc
      exact_mod_cast h2
    · intro hc
      have h2 : ((q - (⌊q⌋ : ℤ) : ℚ) : ℝ) < ((1/2 : ℚ) : ℝ) := Rat.cast_lt.mpr hc
      push_cast at h2
      exact h2
  have hiff2 : (1/2 < (q : ℝ) - ((⌊q⌋ : ℤ) : ℝ)) ↔ (1/2 < q - ⌊q⌋) := by
    constructor
    · intro hc
      have h2 : ((1/2 : ℚ) : ℝ) < ((q - (⌊q⌋ : ℤ) : ℚ) : ℝ) := by
        push_cast
        exact hc
      exact_mod_cast h2
    · intro hc
      have h2 : ((1/2 : ℚ) : ℝ) < ((q - (⌊q⌋ : ℤ) : ℚ) : ℝ) := Rat.cast_lt.mpr hc
      push_cast at h2
      exact h2
  unfold pyroundR pyround
  simp only [Rat.floor_cast]
  by_cases h1 : q - ⌊q⌋ < 1/2
  · rw [if_pos (hiff1.mpr h1), if_pos h1]
  · rw [if_neg (fun hc => h1 (hiff1.mp hc)), if_neg h1]
    by_cases h3 : 1/2 < q - ⌊q⌋
    · rw [if_pos (hiff2.mpr h3), if_pos h3]
    · rw [if_neg (fun hc => h3 (hiff2.mp hc)), if_neg h3]

/-- `reportDist` of a perfect square evaluates through the rational
rounding. -/
lemma reportDist_sq (q : ℚ) (hq : 0 ≤ q) :
    reportDist (q ^ 2) = ((pyround (q * 10000) : ℤ) : ℝ) / 10000 := by
  unfold reportDist pyround4
  have h1 : ((q ^ 2 : ℚ) : ℝ) = ((q : ℚ) : ℝ) ^ 2 := by
    push_cast
    ring
  rw [h1, Real.sqrt_sq (by exact_mod_cast hq)]
  have h2 : ((q : ℚ) : ℝ) * 10000 = ((q * 10000 : ℚ) : ℝ) := by
    push_cast
    ring
  rw [h2, pyroundR_ratCast]

lemma foldl_best_some (v : Vec) (l : List (String × Vec)) (b : String × ℚ) :
    ∃ nb, l.foldl
      (fun best p =>
        match best with
        | none => some (p.1, distSq v p.2)
        | some b0 => if distSq v p.2 < b0.2 then some (p.1, distSq v p.2) else best)
      (some b) = some nb := by
  induction l generalizing b with
  | nil => exact ⟨b, rfl⟩
  | cons p rest ih =>
    simp only [List.foldl_cons]
    by_cases hd : distSq v p.2 < b.2
    · simpa [hd] using ih (p.1, distSq v p.2)
    · simpa [hd] using ih b

lemma bestLabel_isSome (avgs : List (String × Vec)) (v : Vec)
    (h : avgs ≠ []) : ∃ nb, bestLabel avgs v = some nb := by
  cases avgs with
  | nil => exact absurd rfl h
  | cons p rest =>
    unfold bestLabel
    simp only [List.foldl_cons]
    exact foldl_best_some v rest (p.1, distSq v p.2)

lemma foldl_best_spec (v : Vec) (l : List (String × Vec)) (b nb : String × ℚ)
    (h : l.foldl
      (fun best p =>
        match best with
        | none => some (p.1, distSq v p.2)
        | some b0 => if distSq v p.2 < b0.2 then some (p.1, distSq v p.2) else best)
      (some b) = some nb) :
    (nb = b ∨ ∃ p ∈ l, p.1 = nb.1 ∧ distSq v p.2 = nb.2) ∧
    nb.2 ≤ b.2 ∧ ∀ p ∈ l, nb.2 ≤ distSq v p.2 := by
  induction l generalizing b with
  | nil =>
    simp only [List.foldl_nil, Option.some.injEq] at h
    exact ⟨Or.inl h.symm, le_of_eq (congrArg Prod.snd h.symm),
      fun p hp => absurd hp (List.not_mem_nil p)⟩
  | cons p rest ih =>
    simp only [List.foldl_cons] at h
    by_cases hd : distSq v p.2 < b.2
    · rw [if_pos hd] at h
      obtain ⟨hmem, hle, hall⟩ := ih (p.1, distSq v p.2) h
      refine ⟨?_, ?_, ?_⟩
      · rcases hmem with heq | ⟨q, hq, hq1, hq2⟩
        · exact Or.inr ⟨p, List.mem_cons_self p rest,
            (congrArg Prod.fst heq).symm, by
              rw [heq]⟩
        · exact Or.inr ⟨q, List.mem_cons_of_mem p hq, hq1, hq2⟩
      · exact le_trans hle (le_of_lt hd)
      · intro q hq
        rcases List.mem_cons.mp hq with rfl | hq'
        · exact hle
        · exact hall q hq'
    · rw [if_neg hd] at h
      obtain ⟨hmem, hle, hall⟩ := ih b h
      push_neg at hd
      refine ⟨?_, hle, ?_⟩
      · rcases hmem with heq | ⟨q, hq, hq1, hq2⟩
        · exact Or.inl heq
        · exact Or.inr ⟨q, List.mem_cons_of_mem p hq, hq1, hq2⟩
      · intro q hq
        rcases List.mem_cons.mp hq with rfl | hq'
        · exact le_trans hle hd
        · exact hall q hq'

lemma bestLabel_spec (avgs : List (String × Vec)) (v : Vec) (nb : String × ℚ)
    (h : bestLabel avgs v = some nb) :
    (∃ p ∈ avgs, p.1 = nb.1 ∧ distSq v p.2 = nb.2) ∧
    ∀ p ∈ avgs, nb.2 ≤ distSq v p.2 := by
  cases avgs with
  | nil =>
    exact absurd h (by
      rw [show bestLabel ([] : List (String × Vec)) v = none from rfl]
      simp)
  | cons p rest =>
    unfold bestLabel at h
    simp only [List.foldl_cons] at h
    obtain ⟨hmem, hle, hall⟩ := foldl_best_spec v rest (p.1, distSq v p.2) nb h
    refine ⟨?_, ?_⟩
    · rcases hmem with heq | ⟨q, hq, hq1, hq2⟩
      · exact ⟨p, List.mem_cons_self p rest,
          (congrArg Prod.fst heq).symm, by rw [heq]⟩
      · exact ⟨q, List.mem_cons_of_mem p hq, hq1, hq2⟩
    · intro q hq
      rcases List.mem_cons.mp hq with rfl | hq'
      · exact hle
      · exact hall q hq'

lemma lookupDsq_spec (avgs : List (String × Vec)) (v : Vec) (lab : String)
    (d : ℚ) (h : lookupDsq avgs v lab = some d) :
    ∃ p ∈ avgs, p.1 = lab ∧ distSq v p.2 = d := by
  unfold lookupDsq at h
  cases hf : avgs.find? (fun p => p.1 == lab) with
  | none => rw [hf] at h; exact Option.noConfusion h
  | some q =>
    rw [hf] at h
    simp at h
    have hq := List.find?_some hf
    simp only [beq_iff_eq] at hq
    exact ⟨q, List.mem_of_find?_eq_some hf, hq, h⟩

lemma processPixel_ok (avgs : List (String × Vec)) (kp : String × LabeledPixel)
    (hne : avgs ≠ []) (hl : (lookupDsq avgs kp.2.emb kp.2.label).isSome) :
    processPixel avgs kp = .ok (pixelStep avgs kp) := by
  obtain ⟨nb, hnb⟩ := bestLabel_isSome avgs kp.2.emb hne
  obtain ⟨oldD, hold⟩ := Option.isSome_iff_exists.mp hl
  unfold processPixel pixelStep
  rw [hnb, hold]
  by_cases hc : nb.1 = kp.2.label <;> simp [hc]

lemma mapM_processPixel (avgs : List (String × Vec))
    (LP : List (String × LabeledPixel)) (hne : avgs ≠ [])
    (hval : ∀ kp ∈ LP, (lookupDsq avgs kp.2.emb kp.2.label).isSome) :
    LP.mapM (processPixel avgs) = .ok (LP.map (pixelStep avgs)) := by
  induction LP with
  | nil => rfl
  | cons kp rest ih =>
    rw [List.mapM_cons, processPixel_ok avgs kp hne
      (hval kp (List.mem_cons_self kp rest)),
      ih (fun q hq => hval q (List.mem_cons_of_mem kp hq))]
    rfl

lemma label_avgs_keys (LE : List (String × List Vec)) :
    (label_avgs LE).map Prod.fst =
      (LE.filter (fun p => ¬ p.2.isEmpty)).map Prod.fst := by
  induction LE with
  | nil => rfl
  | cons p rest ih =>
    simp only [label_avgs, List.isEmpty_iff, List.filterMap_cons,
      List.filter_cons] at ih ⊢
    by_cases hp : p.2 = [] <;> simp [hp, ih]

lemma relabel_ok (LE : List (String × List Vec))
    (LP : List (String × LabeledPixel)) (hle : LE ≠ []) (hlp : LP ≠ [])
    (havgs : label_avgs LE ≠ [])
    (hval : ∀ kp ∈ LP, (lookupDsq (label_avgs LE) kp.2.emb kp.2.label).isSome) :
    api_relabel_by_similarity LE LP =
      .ok ⟨(LP.map (pixelStep (label_avgs LE))).reduceOption,
           ((LP.map (pixelStep (label_avgs LE))).reduceOption).length,
           LP.length,
           LP.length - ((LP.map (pixelStep (label_avgs LE))).reduceOption).length⟩ := by
  unfold api_relabel_by_similarity
  rw [if_neg (by simp [hle]), if_neg (by simp [hlp]), if_neg (by simp [havgs])]
  rw [mapM_processPixel (label_avgs LE) LP havgs hval]
  rfl

/-- C3 amended: given nonempty inputs, (a) when no label has any vectors
the endpoint errors; (b) the computed label means are exactly the means
of the labels with a nonempty vector list, in order; and (c) when every
pixel's current label has a mean, the request succeeds and: every emitted
record's new label is a true distance-minimising label for that pixel,
and the record's distance fields are the rounded (`round(sqrt(d), 4)`)
old/new distances; records are emitted exactly for the pixels whose
closest label differs from their current label; and a pixel whose
strictly closest mean `B` differs from its current label `A` yields an
`A` to `B` record whose underlying unrounded distances are strictly
ordered (`newDsq < oldDsq`) and whose emitted rounded fields satisfy
`new_distance ≤ old_distance` — only the weak inequality, since the
endpoint's final `round(., 4)` can collapse a near-tie. -/
theorem C3_relabel (LE : List (String × List Vec))
    (LP : List (String × LabeledPixel)) (hle : LE ≠ []) (hlp : LP ≠ []) :
    (label_avgs LE = [] →
      api_relabel_by_similarity LE LP = .error "No valid labels with embeddings") ∧
    ((label_avgs LE).map Prod.fst =
      (LE.filter (fun p => ¬ p.2.isEmpty)).map Prod.fst) ∧
    (∀ p ∈ label_avgs LE, ∃ vl, (p.1, vl) ∈ LE ∧ vl ≠ [] ∧ p.2 = vecMean vl) ∧
    (label_avgs LE ≠ [] →
     (∀ kp ∈ LP, (lookupDsq (label_avgs LE) kp.2.emb kp.2.label).isSome) →
     ∃ res, api_relabel_by_similarity LE LP = .ok res ∧
       res.total_pixels = LP.length ∧
       res.relabel_count = res.relabeled.length ∧
       res.unchanged_pixels = LP.length - res.relabeled.length ∧
       (∀ r ∈ res.relabeled, ∃ kp ∈ LP, r.key = kp.1 ∧
         r.old_label = kp.2.label ∧ r.new_label ≠ r.old_label ∧
         ∃ newDsq oldDsq : ℚ,
           bestLabel (label_avgs LE) kp.2.emb = some (r.new_label, newDsq) ∧
           lookupDsq (label_avgs LE) kp.2.emb kp.2.label = some oldDsq ∧
           r.new_distance = reportDist newDsq ∧
           r.old_distance = reportDist oldDsq ∧
           (∀ p ∈ label_avgs LE, newDsq ≤ distSq kp.2.emb p.2)) ∧
       (∀ kp ∈ LP, ∀ nb, bestLabel (label_avgs LE) kp.2.emb = some nb →
         nb.1 ≠ kp.2.label →
         ∀ oldD, lookupDsq (label_avgs LE) kp.2.emb kp.2.label = some oldD →
         (⟨kp.1, kp.2.label, nb.1, reportDist oldD, reportDist nb.2,
           kp.2.lat, kp.2.lon⟩ :
           RelabelRecord) ∈ res.relabeled) ∧
       (∀ kp ∈ LP, ∀ B bm, (B, bm) ∈ label_avgs LE → B ≠ kp.2.label →
         (∀ p ∈ label_avgs LE, p.1 ≠ B →
           distSq kp.2.emb bm < distSq kp.2.emb p.2) →
         ∃ r ∈ res.relabeled, r.key = kp.1 ∧ r.old_label = kp.2.label ∧
           r.new_label = B ∧
           ∃ newDsq oldDsq : ℚ,
             bestLabel (label_avgs LE) kp.2.emb = some (B, newDsq) ∧
             lookupDsq (label_avgs LE) kp.2.emb kp.2.label = some oldDsq ∧
             newDsq < oldDsq ∧
             r.new_distance = reportDist newDsq ∧
             r.old_distance = reportDist oldDsq ∧
             r.new_distance ≤ r.old_distance)) := by
  refine ⟨?_, ?_, ?_, ?_⟩
  · intro hav
    unfold api_relabel_by_similarity
    rw [if_neg (by simp [hle]), if_neg (by simp [hlp]), if_pos (by simp [hav])]
  · exact label_avgs_keys LE
  · intro p hp
    unfold label_avgs at hp
    rw [List.mem_filterMap] at hp
    obtain ⟨q, hq, hqe⟩ := hp
    by_cases hqq : q.2.isEmpty
    · rw [if_pos hqq] at hqe
      exact absurd hqe (by simp)
    · rw [if_neg hqq] at hqe
      obtain rfl := Option.some.injEq _ _ |>.mp hqe
      exact ⟨q.2, by simpa using hq, by simpa [List.isEmpty_iff] using hqq, rfl⟩
  · intro havgs hval
    refine ⟨_, relabel_ok LE LP hle hlp havgs hval, rfl, rfl, rfl, ?_, ?_, ?_⟩
    · intro r hr
      rw [List.reduceOption_mem_iff, List.mem_map] at hr
      obtain ⟨kp, hkp, hstep⟩ := hr
      cases hb : bestLabel (label_avgs LE) kp.2.emb with
      | none => simp [pixelStep, hb] at hstep
      | some nb =>
        cases hl : lookupDsq (label_avgs LE) kp.2.emb kp.2.label with
        | none => simp [pixelStep, hb, hl] at hstep
        | some oldD =>
          by_cases hne : nb.1 = kp.2.label
          · simp [pixelStep, hb, hl, hne] at hstep
          · simp only [pixelStep, hb, hl, ne_eq, hne, not_false_eq_true,
              if_true, ite_true, Option.some.injEq] at hstep
            subst hstep
            refine ⟨kp, hkp, rfl, rfl, hne, nb.2, oldD, ?_, hl, rfl, rfl, ?_⟩
            · exact hb
            · exact (bestLabel_spec _ _ _ hb).2
    · intro kp hkp nb hnb hne oldD holdD
      rw [List.reduceOption_mem_iff, List.mem_map]
      refine ⟨kp, hkp, ?_⟩
      simp [pixelStep, hnb, holdD, hne]
    · intro kp hkp B bm hB hBne hstrict
      have havne : label_avgs LE ≠ [] := by
        intro hc
        rw [hc] at hB
        exact absurd hB (List.not_mem_nil _)
      obtain ⟨nb, hnb⟩ := bestLabel_isSome (label_avgs LE) kp.2.emb havne
      obtain ⟨⟨q, hq, hq1, hq2⟩, hmin⟩ := bestLabel_spec _ _ _ hnb
      have hble : nb.2 ≤ distSq kp.2.emb bm := hmin (B, bm) hB
      have hlab : nb.1 = B := by
        by_contra hc
        have := hstrict q hq (by rw [hq1]; exact hc)
        rw [hq2] at this
        exact absurd (lt_of_lt_of_le this hble) (lt_irrefl _)
      obtain ⟨oldD, holdD⟩ := Option.isSome_iff_exists.mp (hval kp hkp)
      obtain ⟨qo, hqo, hqo1, hqo2⟩ := lookupDsq_spec _ _ _ _ holdD
      have hqoB : qo.1 ≠ B := by
        rw [hqo1]
        exact fun hc => hBne hc.symm
      have hodd : distSq kp.2.emb bm < oldD := by
        rw [← hqo2]
        exact hstrict qo hqo hqoB
      have hnewold : nb.2 < oldD := lt_of_le_of_lt hble hodd
      refine ⟨⟨kp.1, kp.2.label, nb.1, reportDist oldD, reportDist nb.2,
        kp.2.lat, kp.2.lon⟩, ?_, rfl, rfl, hlab, nb.2, oldD,
        (by rw [← hlab]; exact hnb), holdD, hnewold, rfl, rfl,
        reportDist_mono hnewold.le⟩
      rw [List.reduceOption_mem_iff, List.mem_map]
      refine ⟨kp, hkp, ?_⟩
      have hcond : ¬ nb.1 = kp.2.label := by
        rw [hlab]
        exact fun hc => hBne hc
      simp [pixelStep, hnb, holdD, hcond]

/-- C3 counterexample: label A's mean sits at true distance 0.00004 from
a pixel currently labeled A, while label B's mean equals the pixel
(distance 0), so B is strictly nearest; the relabel record is emitted,
but both of its distance fields round to 0.0000, so the emitted record
does *not* satisfy the claimed strict `old_distance > new_distance`. -/
theorem C3_counterexample :
    ∃ res, api_relabel_by_similarity
        [("A", [[1/25000]]), ("B", [[0]])]
        [("p1", ⟨"A", [0], 1, 2⟩)] = .ok res ∧
      ∃ r ∈ res.relabeled, r.key = "p1" ∧ r.old_label = "A" ∧
        r.new_label = "B" ∧
        distSq [0] (vecMean [[0]]) <
          distSq [0] (vecMean [[1/25000]]) ∧
        r.old_distance = r.new_distance := by
  have hmean : label_avgs [("A", [[(1 : ℚ)/25000]]), ("B", [[0]])] =
      [("A", [(1 : ℚ)/25000]), ("B", [(0 : ℚ)])] := by
    simp [label_avgs, vecMean]
  have hbest : bestLabel [("A", [(1 : ℚ)/25000]), ("B", [(0 : ℚ)])] [0] =
      some ("B", 0) := by
    unfold bestLabel
    simp only [List.foldl_cons, List.foldl_nil]
    norm_num [distSq]
  have hlook : lookupDsq [("A", [(1 : ℚ)/25000]), ("B", [(0 : ℚ)])] [0] "A" =
      some ((1/25000 : ℚ) ^ 2) := by
    simp [lookupDsq]
    norm_num [distSq]
  have hok := relabel_ok
    [("A", [[(1 : ℚ)/25000]]), ("B", [[0]])]
    [("p1", ⟨"A", [0], 1, 2⟩)]
    (by decide) (by decide)
    (by rw [hmean]; decide)
    (by
      intro kp hkp
      rw [List.mem_singleton] at hkp
      subst hkp
      show (lookupDsq (label_avgs [("A", [[(1 : ℚ)/25000]]), ("B", [[0]])])
        [0] "A").isSome = true
      rw [hmean, hlook]
      rfl)
  have hstep : pixelStep
      (label_avgs [("A", [[(1 : ℚ)/25000]]), ("B", [[0]])])
      ("p1", ⟨"A", [0], 1, 2⟩) =
      some ⟨"p1", "A", "B", reportDist ((1/25000 : ℚ) ^ 2),
        reportDist 0, 1, 2⟩ := by
    rw [hmean]
    simp only [pixelStep, hbest, hlook, ne_eq]
    rw [if_pos (by decide)]
  have hold : reportDist ((1/25000 : ℚ) ^ 2) = 0 := by
    rw [reportDist_sq (1/25000) (by norm_num)]
    rw [show pyround ((1/25000 : ℚ) * 10000) = 0 by with_unfolding_all decide]
    norm_num
  have hnew : reportDist (0 : ℚ) = 0 := by
    rw [show (0 : ℚ) = 0 ^ 2 by norm_num, reportDist_sq 0 le_rfl]
    rw [show pyround ((0 : ℚ) * 10000) = 0 by with_unfolding_all decide]
    norm_num
  refine ⟨_, hok, ⟨"p1", "A", "B", reportDist ((1/25000 : ℚ) ^ 2),
    reportDist 0, 1, 2⟩, ?_, rfl, rfl, rfl, ?_, ?_⟩
  · rw [List.reduceOption_mem_iff, List.mem_map]
    exact ⟨("p1", ⟨"A", [0], 1, 2⟩), List.mem_singleton_self _, hstep⟩
  · simp [distSq, vecMean]
  · rw [hold, hnew]

/-- C3 witness: label means A, B, C with a pixel currently labeled A
whose strictly nearest mean is B: the endpoint emits an A-to-B record
whose unrounded distances are strictly ordered and whose rounded fields
(here 1.0 versus 4.0) remain strictly ordered as well. -/
theorem C3_witness :
    ∃ res, api_relabel_by_similarity
        [("A", [[0, 0]]), ("B", [[5, 0]]), ("C", [[9, 0]])]
        [("p1", ⟨"A", [4, 0], 1, 2⟩)] = .ok res ∧
      ∃ r ∈ res.relabeled, r.key = "p1" ∧ r.old_label = "A" ∧
        r.new_label = "B" ∧ r.new_distance ≤ r.old_distance ∧
        r.new_distance < r.old_distance := by
  have h := C3_relabel
    [("A", [[0, 0]]), ("B", [[5, 0]]), ("C", [[9, 0]])]
    [("p1", ⟨"A", [4, 0], 1, 2⟩)]
    (by with_unfolding_all decide) (by with_unfolding_all decide)
  obtain ⟨res, hres, _, _, _, _, _, hstrict⟩ :=
    h.2.2.2 (by with_unfolding_all decide) (by with_unfolding_all decide)
  obtain ⟨r, hrmem, hkey, holdl, hnewl, newDsq, oldDsq, hb, hlk, hlt,
    hnd, hod, hle⟩ :=
    hstrict ("p1", ⟨"A", [4, 0], 1, 2⟩) (by with_unfolding_all decide)
      "B" (vecMean [[5, 0]]) (by with_unfolding_all decide)
      (by with_unfolding_all decide) (by with_unfolding_all decide)
  have hb' : bestLabel
      (label_avgs [("A", [[0, 0]]), ("B", [[5, 0]]), ("C", [[9, 0]])])
      [4, 0] = some ("B", 1) := by
    with_unfolding_all decide
  have hlk' : lookupDsq
      (label_avgs [("A", [[0, 0]]), ("B", [[5, 0]]), ("C", [[9, 0]])])
      [4, 0] "A" = some 16 := by
    with_unfolding_all decide
  have hnd1 : newDsq = 1 := by
    have := hb.symm.trans hb'
    simpa using this
  have hod1 : oldDsq = 16 := by
    have := hlk.symm.trans hlk'
    simpa using this
  have e1 : reportDist (1 : ℚ) = 1 := by
    rw [show (1 : ℚ) = 1 ^ 2 by norm_num, reportDist_sq 1 (by norm_num)]
    rw [show pyround ((1 : ℚ) * 10000) = 10000 by with_unfolding_all decide]
    norm_num
  have e2 : reportDist (16 : ℚ) = 4 := by
    rw [show (16 : ℚ) = 4 ^ 2 by norm_num, reportDist_sq 4 (by norm_num)]
    rw [show pyround ((4 : ℚ) * 10000) = 40000 by with_unfolding_all decide]
    norm_num
  have hstrictR : r.new_distance < r.old_distance := by
    rw [hnd, hod, hnd1, hod1, e1, e2]
    norm_num
  exact ⟨res, hres, r, hrmem, hkey, holdl, hnewl, hle, hstrictR⟩

/-! ## C7: identifier validation before filesystem access -/

/-- C7 counterexample: the backend sentinel-2 tile endpoint performs a
filesystem probe whose path embeds the raw, never-validated viewport
identifier, and answers with a tile rather than a rejection — so not
every tile request validates its identifiers before filesystem access. -/
theorem C7_counterexample :
    (get_sentinel2_tile "../evil" 2024 false true).2 =
      ["../evil/sentinel2/2024_rgb.tif"] ∧
    (get_sentinel2_tile "../evil" 2024 false true).1 =
      TileResponse.transparent DEFAULT_TILE_SIZE := by
  constructor <;> rfl

/-- C7 amended: the legacy tile endpoint `get_tile` validates the
viewport name (against the allow-list) and the map identifier before any
filesystem access, and a request failing either check is answered with a
400 and performs no filesystem access at all; the backend
`get_sentinel2_tile` endpoint, in contrast, probes the filesystem with
the raw identifier on every request. -/
theorem C7_amended (allow : List String) (viewport map_id : String)
    (file : Option RasterFile) (gt : Geotransform) (openOk readOk : Bool)
    (bbox : BboxQ)
    (hbad : validate_viewport_name allow viewport = false ∨
            VALID_MAP_IDS.contains map_id = false) :
    ((get_tile allow viewport map_id file gt openOk readOk bbox).2 = [] ∧
     ∃ msg, (get_tile allow viewport map_id file gt openOk readOk bbox).1 =
       TileResponse.badRequest msg) ∧
    ∀ viewport_id : String, ∀ year : ℤ, ∀ fe ro : Bool,
      (get_sentinel2_tile viewport_id year fe ro).2 =
        [viewport_id ++ "/sentinel2/" ++ toString year ++ "_rgb.tif"] := by
  constructor
  · unfold get_tile
    rcases hbad with h | h
    · rw [h]
      exact ⟨rfl, "Invalid viewport name", rfl⟩
    · by_cases hv : validate_viewport_name allow viewport
      · rw [hv, h]
        exact ⟨rfl, "Invalid map_id", rfl⟩
      · rw [Bool.not_eq_true] at hv
        rw [hv]
        exact ⟨rfl, "Invalid viewport name", rfl⟩
  · intro viewport_id year fe ro
    unfold get_sentinel2_tile
    cases fe <;> cases ro <;> rfl

/-- C7 witness: a request with a viewport name outside the allow-list is
rejected with no filesystem access. -/
theorem C7_witness :
    (get_tile ["blr"] "../evil" "2024" none ⟨1, 0, 0, 0, -1, 0⟩ true true
        ⟨0, 0, 1, 1⟩).2 = [] ∧
    ∃ msg, (get_tile ["blr"] "../evil" "2024" none ⟨1, 0, 0, 0, -1, 0⟩ true true
        ⟨0, 0, 1, 1⟩).1 = TileResponse.badRequest msg :=
  (C7_amended ["blr"] "../evil" "2024" none ⟨1, 0, 0, 0, -1, 0⟩ true true
    ⟨0, 0, 1, 1⟩ (Or.inl (by with_unfolding_all decide))).1

/-! ## C8: pyramid level dimensions -/

/-- C8 counterexample: for a 16x16 embedding grid the viewport pyramid's
level 0 is 16x16 while level 1 is the constant 4408x4408, so the levels
of one source do not all share identical dimensions equal to the
configured constant. -/
theorem C8_counterexample :
    ((create_pyramids_for_viewport 16 16).getD 0 ⟨0, 0, 0⟩).height ≠
      ((create_pyramids_for_viewport 16 16).getD 1 ⟨0, 0, 0⟩).height ∧
    ((create_pyramids_for_viewport 16 16).getD 0 ⟨0, 0, 0⟩).height ≠
      TARGET_SIZE := by
  constructor <;> with_unfolding_all decide

/-- C8 amended: in the viewport-embedding pyramid every level other than
level 0 has the constant `TARGET_SIZE x TARGET_SIZE` dimensions, while
level 0 keeps the source grid's own dimensions; in the RGB pyramid
builder a successful uncached build records exactly `num_levels` level
entries, numbered 0..num_levels-1, whose dimensions are the
`calculate_new_shape` of the per-level zoom factor (they shrink with the
level rather than staying constant). -/
theorem C8_amended (h w : ℕ) (k : ℕ) (hk1 : 1 ≤ k) (hk : k < NUM_ZOOM_LEVELS)
    (env : RgbPyramidEnv) (src : RasterFile) (res : ℚ) (n : ℕ)
    (hsrc : env.source = some src) (hn1 : 1 ≤ n) (hn5 : n ≤ 5) :
    ((create_pyramids_for_viewport h w).getD k ⟨0, 0, 0⟩ =
        ⟨TARGET_SIZE, TARGET_SIZE, 3⟩) ∧
    ((create_pyramids_for_viewport h w).getD 0 ⟨0, 0, 0⟩ = ⟨h, w, 3⟩) ∧
    ((create_pyramids_for_viewport h w).length = NUM_ZOOM_LEVELS) ∧
    ∀ out, create_rgb_pyramids env res n false = .ok out →
      out.pyramid_info.levels.length = n ∧
      ∀ l : ℕ, l < n →
        out.pyramid_info.levels.getD l (0, 0, 0) =
          (l, (rgbLevelShape src res l).2, (rgbLevelShape src res l).1) := by
  have hbands : ∀ j : ℕ, viewportLevel h w j =
      if j = 0 then ⟨h, w, 3⟩ else ⟨TARGET_SIZE, TARGET_SIZE, 3⟩ := by
    intro j
    induction j with
    | zero => rfl
    | succ i ih =>
      simp only [viewportLevel, create_pyramid_level, ih]
      by_cases hi : i = 0 <;> simp [hi]
  have hlen : (create_pyramids_for_viewport h w).length = NUM_ZOOM_LEVELS := by
    simp [create_pyramids_for_viewport]
  have hget : ∀ j : ℕ, j < NUM_ZOOM_LEVELS →
      (create_pyramids_for_viewport h w).getD j ⟨0, 0, 0⟩ = viewportLevel h w j := by
    intro j hj
    unfold create_pyramids_for_viewport
    rw [List.getD_eq_getElem?_getD, List.getElem?_map, List.getElem?_range hj]
    rfl
  refine ⟨?_, ?_, hlen, ?_⟩
  · rw [hget k hk, hbands k, if_neg (by omega)]
  · rw [hget 0 (by decide), hbands 0, if_pos rfl]
  · intro out hout
    have hn : ¬ (n < 1 ∨ 5 < n) := by omega
    unfold create_rgb_pyramids at hout
    rw [hsrc] at hout
    simp only [hn, if_false] at hout
    cases hout
    constructor
    · simp
    · intro l hl
      rw [List.getD_eq_getElem?_getD, List.getElem?_map, List.getElem?_range hl]
      rfl

/-- C8 witness: the amended statement at a concrete 16x16 grid and a
concrete uncached RGB build. -/
theorem C8_witness :
    ((create_pyramids_for_viewport 16 16).getD 2 ⟨0, 0, 0⟩ =
        ⟨TARGET_SIZE, TARGET_SIZE, 3⟩) ∧
    ((create_pyramids_for_viewport 16 16).getD 0 ⟨0, 0, 0⟩ = ⟨16, 16, 3⟩) := by
  have h := C8_amended 16 16 2 (by decide) (by decide)
    { source := some ⟨100, 100, 3⟩, source_mtime := 0, cached_meta := none }
    ⟨100, 100, 3⟩ 1 5 rfl (by decide) (by decide)
  exact ⟨h.1, h.2.1⟩

example :
    (api_search_similar_embeddings [[0], [3], [10]] [(0, 0), (1, 0), (2, 0)]
      ⟨1, 0, 0, 0, -1, 0⟩ [0] 9).matchList.map SearchMatch.dsq = [0, 9] := by
  with_unfolding_all decide

/-! ## C9: tile_to_bbox partitions the Mercator extent -/

lemma ttb_lon_min (x y z : ℕ) :
    (tile_to_bbox x y z).lon_min = (x : ℝ) / 2 ^ z * 360 - 180 := rfl

lemma ttb_lon_max (x y z : ℕ) :
    (tile_to_bbox x y z).lon_max = ((x : ℝ) + 1) / 2 ^ z * 360 - 180 := rfl

open Real in
lemma ttb_lat_max (x y z : ℕ) :
    (tile_to_bbox x y z).lat_max =
      arctan (sinh (π * (1 - 2 * (y : ℝ) / 2 ^ z))) * (180 / π) := rfl

open Real in
lemma ttb_lat_min (x y z : ℕ) :
    (tile_to_bbox x y z).lat_min =
      arctan (sinh (π * (1 - 2 * ((y : ℝ) + 1) / 2 ^ z))) * (180 / π) := rfl

open Real in
lemma arctan_sinh_deg_lt {a b : ℝ} (h : a < b) :
    arctan (sinh a) * (180 / π) < arctan (sinh b) * (180 / π) :=
  mul_lt_mul_of_pos_right (arctan_strictMono (sinh_lt_sinh.mpr h))
    (by positivity)

open Real in
lemma arctan_sinh_deg_le {a b : ℝ} (h : a ≤ b) :
    arctan (sinh a) * (180 / π) ≤ arctan (sinh b) * (180 / π) :=
  mul_le_mul_of_nonneg_right (arctan_strictMono.monotone (sinh_le_sinh.mpr h))
    (by positivity)

open Real in
lemma merc_arg_lt (z : ℕ) {a b : ℝ} (h : a < b) :
    π * (1 - 2 * b / 2 ^ z) < π * (1 - 2 * a / 2 ^ z) := by
  have hn : (0 : ℝ) < 2 ^ z := by positivity
  have h2 : 2 * a / 2 ^ z < 2 * b / 2 ^ z :=
    (div_lt_div_right hn).mpr (by linarith)
  exact mul_lt_mul_of_pos_left (by linarith) pi_pos

/-- Any point at most the first edge and strictly above the last edge of
a chain of edge values lies in one of the consecutive steps. -/
lemma exists_step_interval (g : ℕ → ℝ) (n : ℕ) (t : ℝ)
    (h0 : t ≤ g 0) (hn : g n < t) :
    ∃ y, y < n ∧ g (y + 1) < t ∧ t ≤ g y := by
  induction n with
  | zero => exact absurd hn (not_lt.mpr h0)
  | succ m ih =>
    by_cases hm : g m < t
    · obtain ⟨y, hy, hy1, hy2⟩ := ih hm
      exact ⟨y, Nat.lt_succ_of_lt hy, hy1, hy2⟩
    · push_neg at hm
      exact ⟨m, Nat.lt_succ_self m, hn, hm⟩

open Real in
/-- C9: at every zoom the `tile_to_bbox` boxes tile the full Web
Mercator extent: adjacent tiles share their longitude and latitude
edges exactly, every box is nondegenerate, the extreme tiles reach
-180/180 degrees longitude and the Mercator latitude limit, boxes of
distinct tiles do not overlap, and every longitude in [-180, 180) and
latitude in (-mercMaxLat, mercMaxLat] is covered by some tile. -/
theorem C9_partition (z : ℕ) :
    (∀ x y : ℕ, (tile_to_bbox (x + 1) y z).lon_min = (tile_to_bbox x y z).lon_max) ∧
    (∀ x y : ℕ, (tile_to_bbox x (y + 1) z).lat_max = (tile_to_bbox x y z).lat_min) ∧
    (∀ x y : ℕ, (tile_to_bbox x y z).lon_min < (tile_to_bbox x y z).lon_max) ∧
    (∀ x y : ℕ, (tile_to_bbox x y z).lat_min < (tile_to_bbox x y z).lat_max) ∧
    (∀ y : ℕ, (tile_to_bbox 0 y z).lon_min = -180) ∧
    (∀ y : ℕ, (tile_to_bbox (2 ^ z - 1) y z).lon_max = 180) ∧
    (∀ x : ℕ, (tile_to_bbox x 0 z).lat_max = mercMaxLat) ∧
    (∀ x : ℕ, (tile_to_bbox x (2 ^ z - 1) z).lat_min = -mercMaxLat) ∧
    (∀ y x x' : ℕ, x < x' →
      (tile_to_bbox x y z).lon_max ≤ (tile_to_bbox x' y z).lon_min) ∧
    (∀ x y y' : ℕ, y < y' →
      (tile_to_bbox x y' z).lat_max ≤ (tile_to_bbox x y z).lat_min) ∧
    (∀ t : ℝ, -180 ≤ t → t < 180 →
      ∃ x, x < 2 ^ z ∧ (tile_to_bbox x 0 z).lon_min ≤ t ∧
        t < (tile_to_bbox x 0 z).lon_max) ∧
    (∀ t : ℝ, -mercMaxLat < t → t ≤ mercMaxLat →
      ∃ y, y < 2 ^ z ∧ (tile_to_bbox 0 y z).lat_min < t ∧
        t ≤ (tile_to_bbox 0 y z).lat_max) := by
  have hn : (0 : ℝ) < 2 ^ z := by positivity
  have hone : 1 ≤ (2 : ℕ) ^ z := Nat.one_le_pow z 2 (by norm_num)
  have hcastN : (((2 : ℕ) ^ z : ℕ) : ℝ) = 2 ^ z := by push_cast; ring
  have hcast1 : (((2 : ℕ) ^ z - 1 : ℕ) : ℝ) + 1 = 2 ^ z := by
    rw [Nat.cast_sub hone]
    push_cast
    ring
  have hadjlat : ∀ x y : ℕ,
      (tile_to_bbox x (y + 1) z).lat_max = (tile_to_bbox x y z).lat_min := by
    intro x y
    rw [ttb_lat_max, ttb_lat_min]
    norm_cast
  have hlatmax0 : ∀ x : ℕ, (tile_to_bbox x 0 z).lat_max = mercMaxLat := by
    intro x
    rw [ttb_lat_max, mercMaxLat]
    norm_num
  have hlatmaxN : ∀ x : ℕ, (tile_to_bbox x (2 ^ z) z).lat_max = -mercMaxLat := by
    intro x
    rw [ttb_lat_max]
    have harg : π * (1 - 2 * (((2 : ℕ) ^ z : ℕ) : ℝ) / 2 ^ z) = -π := by
      rw [hcastN]
      field_simp
      ring
    rw [harg, show (-π : ℝ) = -π from rfl, sinh_neg, arctan_neg, mercMaxLat]
    ring
  refine ⟨?_, hadjlat, ?_, ?_, ?_, ?_, hlatmax0, ?_, ?_, ?_, ?_, ?_⟩
  · intro x y
    rw [ttb_lon_min, ttb_lon_max]
    push_cast
    ring
  · intro x y
    rw [ttb_lon_min, ttb_lon_max]
    have h1 : (x : ℝ) / 2 ^ z < ((x : ℝ) + 1) / 2 ^ z :=
      (div_lt_div_right hn).mpr (by linarith)
    nlinarith [h1]
  · intro x y
    rw [ttb_lat_min, ttb_lat_max]
    exact arctan_sinh_deg_lt (merc_arg_lt z (by linarith [lt_add_one ((y : ℝ))]))
  · intro y
    rw [ttb_lon_min]
    norm_num
  · intro y
    rw [ttb_lon_max, hcast1, div_self (ne_of_gt hn)]
    norm_num
  · intro x
    rw [← hadjlat x (2 ^ z - 1), Nat.sub_add_cancel hone]
    exact hlatmaxN x
  · intro y x x' hx
    rw [ttb_lon_max, ttb_lon_min]
    have h1 : ((x : ℝ) + 1) ≤ (x' : ℝ) := by exact_mod_cast hx
    have h2 : ((x : ℝ) + 1) / 2 ^ z ≤ (x' : ℝ) / 2 ^ z :=
      (div_le_div_right hn).mpr h1
    nlinarith [h2]
  · intro x y y' hy
    rw [ttb_lat_max, ttb_lat_min]
    apply arctan_sinh_deg_le
    have h1 : ((y : ℝ) + 1) ≤ (y' : ℝ) := by exact_mod_cast hy
    have h2 : 2 * ((y : ℝ) + 1) / 2 ^ z ≤ 2 * (y' : ℝ) / 2 ^ z :=
      (div_le_div_right hn).mpr (by linarith)
    have hπ := pi_pos
    exact mul_le_mul_of_nonneg_left (by linarith) hπ.le
  · intro t h1 h2
    have hu0 : (0 : ℝ) ≤ (t + 180) / 360 * 2 ^ z :=
      mul_nonneg (div_nonneg (by linarith) (by norm_num)) hn.le
    have hfl0 : 0 ≤ ⌊(t + 180) / 360 * 2 ^ z⌋ := Int.floor_nonneg.mpr hu0
    have hcast : ((⌊(t + 180) / 360 * 2 ^ z⌋.toNat : ℕ) : ℝ) =
        (⌊(t + 180) / 360 * 2 ^ z⌋ : ℝ) := by
      exact_mod_cast Int.toNat_of_nonneg hfl0
    have hult : (t + 180) / 360 * 2 ^ z < 2 ^ z := by
      have ha : (t + 180) / 360 < 1 := by
        rw [div_lt_one (by norm_num)]
        linarith
      nlinarith [ha]
    have hfl_lt : ⌊(t + 180) / 360 * 2 ^ z⌋ < ((2 : ℕ) ^ z : ℤ) := by
      apply Int.floor_lt.mpr
      push_cast
      exact hult
    refine ⟨⌊(t + 180) / 360 * 2 ^ z⌋.toNat, ?_, ?_, ?_⟩
    · have hx : ((⌊(t + 180) / 360 * 2 ^ z⌋.toNat : ℕ) : ℤ) < ((2 : ℕ) ^ z : ℤ) := by
        rw [Int.toNat_of_nonneg hfl0]
        exact hfl_lt
      exact_mod_cast hx
    · rw [ttb_lon_min]
      have hxle : ((⌊(t + 180) / 360 * 2 ^ z⌋.toNat : ℕ) : ℝ) ≤
          (t + 180) / 360 * 2 ^ z := by
        rw [hcast]
        exact Int.floor_le _
      have key : ((⌊(t + 180) / 360 * 2 ^ z⌋.toNat : ℕ) : ℝ) / 2 ^ z * 360 ≤
          t + 180 := by
        rw [div_mul_eq_mul_div, div_le_iff hn]
        calc ((⌊(t + 180) / 360 * 2 ^ z⌋.toNat : ℕ) : ℝ) * 360 ≤
            (t + 180) / 360 * 2 ^ z * 360 :=
              mul_le_mul_of_nonneg_right hxle (by norm_num)
          _ = (t + 180) * 2 ^ z := by
              field_simp
      linarith
    · rw [ttb_lon_max]
      have hxgt : (t + 180) / 360 * 2 ^ z <
          ((⌊(t + 180) / 360 * 2 ^ z⌋.toNat : ℕ) : ℝ) + 1 := by
        rw [hcast]
        exact Int.lt_floor_add_one _
      have key : t + 180 <
          (((⌊(t + 180) / 360 * 2 ^ z⌋.toNat : ℕ) : ℝ) + 1) / 2 ^ z * 360 := by
        rw [div_mul_eq_mul_div, lt_div_iff hn]
        calc (t + 180) * 2 ^ z = (t + 180) / 360 * 2 ^ z * 360 := by
              field_simp
          _ < (((⌊(t + 180) / 360 * 2 ^ z⌋.toNat : ℕ) : ℝ) + 1) * 360 :=
              mul_lt_mul_of_pos_right hxgt (by norm_num)
      linarith
  · intro t hlow hupp
    obtain ⟨y, hy, hy1, hy2⟩ := exists_step_interval
      (fun y => (tile_to_bbox 0 y z).lat_max) (2 ^ z) t
      (by simpa [hlatmax0 0] using hupp)
      (by simpa [hlatmaxN 0] using hlow)
    refine ⟨y, hy, ?_, hy2⟩
    rw [← hadjlat 0 y]
    exact hy1

/-- C9 witness: at zoom 0 the single tile covers longitude 0 and
latitude 0. -/
theorem C9_witness :
    (∃ x, x < 2 ^ 0 ∧ (tile_to_bbox x 0 0).lon_min ≤ 0 ∧
      (0 : ℝ) < (tile_to_bbox x 0 0).lon_max) ∧
    (∃ y, y < 2 ^ 0 ∧ (tile_to_bbox 0 y 0).lat_min < 0 ∧
      (0 : ℝ) ≤ (tile_to_bbox 0 y 0).lat_max) := by
  have hpos : (0 : ℝ) < mercMaxLat := by
    rw [mercMaxLat]
    apply mul_pos
    · calc (0 : ℝ) = Real.arctan 0 := Real.arctan_zero.symm
        _ < Real.arctan (Real.sinh Real.pi) :=
          Real.arctan_strictMono (Real.sinh_pos_iff.mpr Real.pi_pos)
    · positivity
  obtain ⟨_, _, _, _, _, _, _, _, _, _, hlon, hlat⟩ := C9_partition 0
  exact ⟨hlon 0 (by norm_num) (by norm_num),
         hlat 0 (by linarith) (by linarith)⟩
